import Mathlib

/-!
Verification development for the Amazon finance fee pipeline
(`Python/libs/finance/AmzT_Fee.py`).

Modelling conventions:
* Python `Decimal` values are exact rationals (`ℚ`).
* Python `float` is IEEE-754 binary64.  The conversion `float(x)` is
  modelled by `fl : ℚ → ℚ`, round-to-nearest-ties-to-even at 53-bit
  precision (the normal range; monetary values never reach the
  overflow/subnormal range).  Float addition `a + b` is `fl (a + b)`.
* Python `dict` is an insertion-ordered association list with
  last-write update-in-place (`dset` / `dget`).
* Python string falsiness (`x or y`) is modelled by `pyStrD` /
  `pyOpt`; numeric/list falsiness is handled at each use site.
* Timestamps are UTC seconds (`ℤ`); the configured local timezone is a
  fixed offset in seconds; a local calendar date is the floor of the
  local timestamp divided by 86400 (`dateOf`).
-/


/-- Python `s or d` for an optional string: `None` and `""` are falsy. -/
def pyStrD (o : Option String) (d : String) : String :=
  match o with
  | none => d
  | some s => if s = "" then d else s

/-- Python `s or None` for an optional string (used for the aggregation key). -/
def pyOpt (o : Option String) : Option String :=
  match o with
  | none => none
  | some s => if s = "" then none else some s

/-- Python `a or b` on optional ints where `0` is falsy
(`QuantityShipped or QuantityOrdered`). -/
def pyIntOr (a b : Option ℤ) : Option ℤ :=
  match a with
  | none => b
  | some n => if n = 0 then b else some n

/-- Dictionary lookup, `m.get(k)`. -/
def dget {α β : Type} [DecidableEq α] (m : List (α × β)) (k : α) : Option β :=
  match m with
  | [] => none
  | (k', v) :: t => if k' = k then some v else dget t k

/-- Dictionary update `m[k] = v`: replaces in place, else appends
(Python dicts preserve insertion order). -/
def dset {α β : Type} [DecidableEq α] (m : List (α × β)) (k : α) (v : β) :
    List (α × β) :=
  match m with
  | [] => [(k, v)]
  | (k', v') :: t => if k' = k then (k, v) :: t else (k', v') :: dset t k v

/-- Round a rational to the nearest integer, ties to even. -/
def roundHalfEven (q : ℚ) : ℤ :=
  if q - (⌊q⌋ : ℚ) < 1/2 then ⌊q⌋
  else if 1/2 < q - (⌊q⌋ : ℚ) then ⌊q⌋ + 1
  else if ⌊q⌋ % 2 = 0 then ⌊q⌋ else ⌊q⌋ + 1

/-- Binary64 rounding of a positive rational: round-to-nearest-even with a
53-bit significand.  (Normal range only: the floats produced by this
pipeline never overflow or reach subnormals.) -/
def flPos (q : ℚ) : ℚ :=
  if q ≤ 0 then 0
  else ((roundHalfEven (q * (2:ℚ) ^ ((52:ℤ) - Int.log 2 q)) : ℤ) : ℚ) *
    (2:ℚ) ^ (Int.log 2 q - (52:ℤ))

/-- Model of Python `float(x)` for `x` an exact rational (e.g. a `Decimal`):
correctly rounded binary64 conversion. -/
def fl (q : ℚ) : ℚ :=
  if q < 0 then -flPos (-q) else flPos q

/-- Model of Python float addition: the exact sum, rounded. -/
def flAdd (a b : ℚ) : ℚ := fl (a + b)

/-- Model of Python `round(x, 2)` on a float (correct rounding, ties to
even, then conversion back to binary64). -/
def round2 (q : ℚ) : ℚ := fl (((roundHalfEven (q * 100) : ℤ) : ℚ) / 100)

/-- Model of Python `round(x, 6)` on a float. -/
def round6 (q : ℚ) : ℚ := fl (((roundHalfEven (q * 1000000) : ℤ) : ℚ) / 1000000)

theorem roundHalfEven_intCast (m : ℤ) : roundHalfEven (m : ℚ) = m := by
  unfold roundHalfEven
  rw [Int.floor_intCast]
  norm_num

theorem roundHalfEven_nonneg {q : ℚ} (h : 0 ≤ q) : 0 ≤ roundHalfEven q := by
  unfold roundHalfEven
  have hf : (0:ℤ) ≤ ⌊q⌋ := Int.floor_nonneg.mpr h
  split_ifs <;> omega

theorem flPos_nonneg (q : ℚ) : 0 ≤ flPos q := by
  unfold flPos
  split_ifs with h
  · exact le_refl 0
  · push_neg at h
    have h1 : (0:ℚ) ≤ q * (2:ℚ) ^ ((52:ℤ) - Int.log 2 q) :=
      mul_nonneg h.le (zpow_nonneg (by norm_num) _)
    have h2 : (0:ℤ) ≤ roundHalfEven (q * (2:ℚ) ^ ((52:ℤ) - Int.log 2 q)) :=
      roundHalfEven_nonneg h1
    exact mul_nonneg (by exact_mod_cast h2) (zpow_nonneg (by norm_num) _)

theorem flPos_of_nonpos {q : ℚ} (h : q ≤ 0) : flPos q = 0 := by
  unfold flPos
  rw [if_pos h]

theorem fl_zero : fl 0 = 0 := by
  unfold fl flPos
  norm_num

theorem fl_neg (q : ℚ) : fl (-q) = -fl q := by
  unfold fl
  rcases lt_trichotomy q 0 with h | h | h
  · rw [if_neg (by linarith : ¬ -q < 0), if_pos h, neg_neg]
  · subst h
    norm_num [flPos_of_nonpos]
  · rw [if_pos (by linarith : -q < 0), if_neg (by linarith : ¬ q < 0), neg_neg]

theorem abs_fl (q : ℚ) : |fl q| = fl |q| := by
  rcases le_or_lt 0 q with h | h
  · rw [abs_of_nonneg h]
    unfold fl
    rw [if_neg (by linarith)]
    exact abs_of_nonneg (flPos_nonneg q)
  · rw [abs_of_neg h]
    unfold fl
    rw [if_pos h, if_neg (by linarith), abs_neg]
    exact abs_of_nonneg (flPos_nonneg (-q))

theorem int_log2_eq {r : ℚ} {e : ℤ} (h0 : 0 < r) (h1 : (2:ℚ) ^ e ≤ r)
    (h2 : r < (2:ℚ) ^ (e + 1)) : Int.log 2 r = e := by
  have a1 : e ≤ Int.log 2 r := by
    refine (Int.zpow_le_iff_le_log (by norm_num) h0).mp ?_
    exact_mod_cast h1
  have a2 : Int.log 2 r < e + 1 := by
    refine (Int.lt_zpow_iff_log_lt (by norm_num) h0).mp ?_
    exact_mod_cast h2
  omega

/-- Values with a 53-bit significand are fixed points of `fl`. -/
theorem fl_of_repr {m e : ℤ} (hm1 : 2 ^ 52 ≤ m) (hm2 : m < 2 ^ 53) {q : ℚ}
    (hq : q = (m : ℚ) * (2:ℚ) ^ (e - (52:ℤ))) : fl q = q := by
  have hm0 : (0:ℤ) < m := lt_of_lt_of_le (by norm_num) hm1
  have hp : (0:ℚ) < (2:ℚ) ^ (e - (52:ℤ)) := zpow_pos (by norm_num) _
  have hq0 : 0 < q := by
    rw [hq]
    exact mul_pos (by exact_mod_cast hm0) hp
  have hlog : Int.log 2 q = e := by
    apply int_log2_eq hq0
    · rw [hq]
      have : ((2:ℚ) ^ (52:ℤ)) * (2:ℚ) ^ (e - (52:ℤ)) = (2:ℚ) ^ e := by
        rw [← zpow_add₀ (by norm_num : (2:ℚ) ≠ 0)]
        ring_nf
      rw [← this]
      apply mul_le_mul_of_nonneg_right _ hp.le
      have : ((2:ℚ) ^ (52:ℤ)) = ((2 ^ 52 : ℤ) : ℚ) := by norm_num
      rw [this]
      exact_mod_cast hm1
    · rw [hq]
      have he : ((2:ℚ) ^ (53:ℤ)) * (2:ℚ) ^ (e - (52:ℤ)) = (2:ℚ) ^ (e + 1) := by
        rw [← zpow_add₀ (by norm_num : (2:ℚ) ≠ 0)]
        ring_nf
      rw [← he]
      apply mul_lt_mul_of_pos_right _ hp
      have : ((2:ℚ) ^ (53:ℤ)) = ((2 ^ 53 : ℤ) : ℚ) := by norm_num
      rw [this]
      exact_mod_cast hm2
  have hcancel : q * (2:ℚ) ^ ((52:ℤ) - e) = (m : ℚ) := by
    rw [hq, mul_assoc, ← zpow_add₀ (by norm_num : (2:ℚ) ≠ 0)]
    norm_num
  unfold fl
  rw [if_neg (by linarith)]
  unfold flPos
  rw [if_neg (by linarith), hlog, hcancel, roundHalfEven_intCast, ← hq]


/-! ### String helpers (Python `str` methods, ASCII) -/

/-- Python whitespace class `\s` (ASCII). -/
def isSpaceChar (c : Char) : Bool :=
  c == ' ' || c == '\t' || c == '\n' || c == '\r' || c == '\x0b' || c == '\x0c'

/-- Regex word character `\w` (ASCII letters, digits, underscore). -/
def isWordChar (c : Char) : Bool := c.isAlphanum || c == '_'

/-- Python `str.lower()` (ASCII). -/
def lowerStr (s : String) : String := String.mk (s.data.map Char.toLower)

/-- Python `str.upper()` (ASCII). -/
def upperStr (s : String) : String := String.mk (s.data.map Char.toUpper)

/-- Python `str.strip()`. -/
def pyStrip (s : String) : String :=
  String.mk (((s.data.dropWhile isSpaceChar).reverse.dropWhile isSpaceChar).reverse)

/-- Python substring test `w in s` (plain, no boundaries). -/
def containsSub (w : List Char) : List Char → Bool
  | [] => w.isPrefixOf ([] : List Char)
  | c :: t => w.isPrefixOf (c :: t) || containsSub w t

/-! ### A tiny matcher semantics for the promotion regexes

Each source regex is translated into a parser `List Char → List (List Char)`
returning the possible remainders after a match starting at the given
position; `reSearch` scans all start positions enforcing the left `\b`
and (optionally) the right `\b`.  All patterns carry `re.I`; inputs are
lowercased before matching and the pattern literals are written in
lowercase. -/

/-- A literal token. -/
def pLit (w : List Char) (s : List Char) : List (List Char) :=
  if w.isPrefixOf s then [s.drop w.length] else []

/-- `\s*` (greedy; complete here because no following token starts with
whitespace). -/
def pSp0 (s : List Char) : List (List Char) := [s.dropWhile isSpaceChar]

/-- `\s+`. -/
def pSp1 : List Char → List (List Char)
  | [] => []
  | c :: t => if isSpaceChar c then [(c :: t).dropWhile isSpaceChar] else []

/-- One character from a set (e.g. `[ -]`). -/
def pSet (cs : List Char) : List Char → List (List Char)
  | [] => []
  | c :: t => if c ∈ cs then [t] else []

/-- An optional character from a set (e.g. `[ -]?`). -/
def pSetOpt (cs : List Char) (s : List Char) : List (List Char) :=
  pSet cs s ++ [s]

/-- An optional literal (e.g. `(ping)?`). -/
def pLitOpt (w : List Char) (s : List Char) : List (List Char) :=
  pLit w s ++ [s]

/-- Sequencing. -/
def pThen (p q : List Char → List (List Char)) (s : List Char) :
    List (List Char) :=
  (p s).flatMap q

/-- Alternation inside a pattern. -/
def pOr (p q : List Char → List (List Char)) (s : List Char) :
    List (List Char) :=
  p s ++ q s

/-- Right-hand `\b`: position after the match is end-of-string or a
non-word character. -/
def endsBd : List Char → Bool
  | [] => true
  | c :: _ => !isWordChar c

/-- Scan all positions; `prev` is the character before the current
position (for the left `\b`). -/
def searchGo (p : List Char → List (List Char)) (needEnd : Bool) :
    Option Char → List Char → Bool
  | prev, [] =>
      (match prev with | none => true | some c => !isWordChar c) &&
        (p []).any (fun rest => !needEnd || endsBd rest)
  | prev, c :: t =>
      ((match prev with | none => true | some c' => !isWordChar c') &&
        (p (c :: t)).any (fun rest => !needEnd || endsBd rest)) ||
      searchGo p needEnd (some c) t

/-- `re.search` for a pattern of shape `\b … \b`. -/
def reSearch (p : List Char → List (List Char)) (s : List Char) : Bool :=
  searchGo p true none s

/-- `re.search` for a pattern of shape `\b …` (no right anchor). -/
def reSearchL (p : List Char → List (List Char)) (s : List Char) : Bool :=
  searchGo p false none s

/-- `\bw\b` for a plain word/phrase literal `w`. -/
def rxWord (w : String) (s : List Char) : Bool := reSearch (pLit w.data) s

/-- `\blightning\s*deal\b`. -/
def rxLightningDeal (s : List Char) : Bool :=
  reSearch (pThen (pLit "lightning".data) (pThen pSp0 (pLit "deal".data))) s

/-- `\b7[ -]?day\b|\bbest deal\b`. -/
def rxSevenDayBest (s : List Char) : Bool :=
  reSearch (pThen (pLit "7".data) (pThen (pSetOpt [' ', '-']) (pLit "day".data))) s ||
  rxWord "best deal" s

/-- `\bprime\s+exclusive\b`. -/
def rxPrimeExclusive (s : List Char) : Bool :=
  reSearch (pThen (pLit "prime".data) (pThen pSp1 (pLit "exclusive".data))) s

/-- `\bprice\s*discount\b|\bdiscount\b`. -/
def rxPriceDiscount (s : List Char) : Bool :=
  reSearch (pThen (pLit "price".data) (pThen pSp0 (pLit "discount".data))) s ||
  rxWord "discount" s

/-- `\bcoupon\b|\bvoucher\b`. -/
def rxCouponVoucher (s : List Char) : Bool :=
  rxWord "coupon" s || rxWord "voucher" s

/-- `\bsubscribe(\s*&\s*save|\s*and\s*save|\s*&\s*s)\b|\bS&S\b`. -/
def rxSubscribe (s : List Char) : Bool :=
  reSearch (pThen (pLit "subscribe".data)
    (pOr (pThen pSp0 (pThen (pLit "&".data) (pThen pSp0 (pLit "save".data))))
      (pOr (pThen pSp0 (pThen (pLit "and".data) (pThen pSp0 (pLit "save".data))))
        (pThen pSp0 (pThen (pLit "&".data) (pThen pSp0 (pLit "s".data))))))) s ||
  rxWord "s&s" s

/-- `\bship(ping)?\s*(promo|discount)\b`. -/
def rxShipPromo (s : List Char) : Bool :=
  reSearch (pThen (pLit "ship".data) (pThen (pLitOpt "ping".data)
    (pThen pSp0 (pOr (pLit "promo".data) (pLit "discount".data))))) s

/-- `\bship(ping)?\b`. -/
def rxShip (s : List Char) : Bool :=
  reSearch (pThen (pLit "ship".data) (pLitOpt "ping".data)) s

/-- `\bdeal of the day\b|\bdotd\b`. -/
def rxDealOfTheDay (s : List Char) : Bool :=
  rxWord "deal of the day" s || rxWord "dotd" s

/-- The ordered text-rule list `PROMO_REGEXES` (matcher, label). -/
def PROMO_REGEXES : List ((List Char → Bool) × String) :=
  [(rxWord "lightning", "LightningDeal"),
   (rxWord "blitzangebot", "LightningDeal"),
   (rxLightningDeal, "LightningDeal"),
   (rxDealOfTheDay, "DealOfTheDay"),
   (rxSevenDayBest, "BestDeal"),
   (rxPrimeExclusive, "PrimeExclusiveDiscount"),
   (rxPriceDiscount, "PriceDiscount"),
   (rxCouponVoucher, "Coupon"),
   (rxSubscribe, "SubscribeAndSave"),
   (rxWord "outlet", "OutletDeal"),
   (rxShipPromo, "ShipPromotion"),
   (rxShip, "ShipPromotion")]

/-- `\bfree\s*shipping\b|\bcore\s*free\s*shipping\b`. -/
def rxFreeShipping (s : List Char) : Bool :=
  reSearch (pThen (pLit "free".data) (pThen pSp0 (pLit "shipping".data))) s ||
  reSearch (pThen (pLit "core".data) (pThen pSp0
    (pThen (pLit "free".data) (pThen pSp0 (pLit "shipping".data))))) s

/-- `\bpercentage\s+off\b`. -/
def rxPercentageOff (s : List Char) : Bool :=
  reSearch (pThen (pLit "percentage".data) (pThen pSp1 (pLit "off".data))) s

/-- `\bplcc\b|\bfree[- ]financing\b|\bfinancing\b`. -/
def rxFinancing (s : List Char) : Bool :=
  rxWord "plcc" s ||
  reSearch (pThen (pLit "free".data) (pThen (pSet ['-', ' '])
    (pLit "financing".data))) s ||
  rxWord "financing" s

/-- `\bpaws[-_]?v2\b`. -/
def rxPaws (s : List Char) : Bool :=
  reSearch (pThen (pLit "paws".data) (pThen (pSetOpt ['-', '_'])
    (pLit "v2".data))) s

/-- `\bplm[-_]` (no right anchor). -/
def rxPlm (s : List Char) : Bool :=
  reSearchL (pThen (pLit "plm".data) (pSet ['-', '_'])) s

/-- Hex digit (lowered input). -/
def isHexChar (c : Char) : Bool := c.isDigit || ('a' ≤ c && c ≤ 'f')

/-- Split a character list on `-`. -/
def splitDash : List Char → List (List Char)
  | [] => [[]]
  | c :: t =>
    if c = '-' then [] :: splitDash t
    else match splitDash t with
      | [] => [[c]]
      | g :: gs => (c :: g) :: gs

/-- `^[0-9a-f]{8}-[0-9a-f]{4}-[0-9a-f]{4}-[0-9a-f]{12}$` (anchored). -/
def rxUuidLike (s : List Char) : Bool :=
  (splitDash s).map List.length = [8, 4, 4, 12] &&
    s.all (fun c => isHexChar c || c == '-')

/-- The ordered identifier-rule list `PROMO_ID_REGEXES`. -/
def PROMO_ID_REGEXES : List ((List Char → Bool) × String) :=
  [(rxFreeShipping, "ShipPromotion"),
   (rxPercentageOff, "PriceDiscount"),
   (rxFinancing, "CreditCardFinancing"),
   (rxPaws, "SystemPromo"),
   (rxPlm, "PlatformPromo"),
   (rxUuidLike, "PromoIdOnly"),
   (rxWord "blitzangebot", "LightningDeal"),
   (rxLightningDeal, "LightningDeal")]

/-- First-match over a rule list applied to a single string. -/
def firstMatch1 : List ((List Char → Bool) × String) → List Char → Option String
  | [], _ => none
  | (m, lbl) :: t, a => if m a then some lbl else firstMatch1 t a

/-- First-match over a rule list where each rule tests `text` then the
serialized raw object (`rx.search(text) or rx.search(raw_str)`). -/
def firstMatch2 : List ((List Char → Bool) × String) → List Char → List Char →
    Option String
  | [], _, _ => none
  | (m, lbl) :: t, a, b => if m a || m b then some lbl else firstMatch2 t a b

/-! ### Type canonicalizer -/

/-- Python `str.capitalize()`: first character uppercased, rest lowercased. -/
def pyCapitalize (s : String) : String :=
  match s.data with
  | [] => ""
  | c :: t => String.mk (Char.toUpper c :: t.map Char.toLower)

/-- `re.fullmatch(r"[A-Z0-9_]+", t)`. -/
def isUpperSnake (s : String) : Bool :=
  !s.data.isEmpty &&
    s.data.all (fun c => ('A' ≤ c && c ≤ 'Z') || c.isDigit || c == '_')

/-- The explicit lookup table in `canonical_type`. -/
def CANON_MAP : List (String × String) :=
  [("COMPENSATED_CLAWBACK", "CompensatedClawback"),
   ("WAREHOUSE_LOST", "WarehouseLost"),
   ("WAREHOUSE_DAMAGE", "WarehouseDamage"),
   ("FBA_INVENTORY_PLACEMENT_SERVICE_FEE", "FBAInventoryPlacementServiceFee"),
   ("LONG_TERM_STORAGE_FEE", "LongTermStorageFee"),
   ("REVERSAL_REIMBURSEMENT", "ReversalReimbursement")]

/-- `canonical_type`: explicit table, else upper-snake → PascalCase, else
verbatim (stripped). -/
def canonical_type (t : Option String) : String :=
  match t with
  | none => ""
  | some t0 =>
    if t0 = "" then ""
    else
      let t1 := pyStrip t0
      match dget CANON_MAP t1 with
      | some v => v
      | none =>
        if isUpperSnake t1 then
          String.intercalate "" ((t1.splitOn "_").map pyCapitalize)
        else t1

/-! ### JSON-shaped raw payloads

Raw SP-API event payloads are JSON documents.  `JVal` models them for the
two places that treat an event as an opaque document: the serialized
lowercase form consumed by the classifier regexes (`json.dumps(...)`)
and the recursive structural scan of the refund extractor. -/

inductive JVal where
  | null : JVal
  | jbool : Bool → JVal
  | num : ℚ → JVal
  | str : String → JVal
  | arr : List JVal → JVal
  | obj : List (String × JVal) → JVal

/-- Python truthiness of a JSON value. -/
def jTruthy : JVal → Bool
  | .null => false
  | .jbool b => b
  | .num q => decide (q ≠ 0)
  | .str s => s ≠ ""
  | .arr xs => !xs.isEmpty
  | .obj fs => !fs.isEmpty

/-- `d.get(k)` on a JSON value (documents are dicts at every use site). -/
def jget : JVal → String → Option JVal
  | .obj fs, k => dget fs k
  | _, _ => none

/-- Truthiness of an optional JSON value (an absent key is falsy). -/
def jTruthyO : Option JVal → Bool
  | none => false
  | some v => jTruthy v

/-- Python `a or b` over optional JSON values. -/
def pyJOr (a b : Option JVal) : Option JVal :=
  if jTruthyO a then a else b

/-- Textual rendering of a JSON number.  (Approximate: Python prints
floats in decimal; only the lowercase word-search behaviour of the
serialized document matters here, and no classifier rule matches a digit
string.) -/
def numRepr (q : ℚ) : String :=
  if q.den = 1 then toString q.num
  else toString q.num ++ "/" ++ toString q.den

/-- Python `str(x)` for a JSON scalar. -/
def jStr : JVal → String
  | .null => "None"
  | .jbool b => if b then "True" else "False"
  | .num q => numRepr q
  | .str s => s
  | .arr _ => "[...]"
  | .obj _ => "\x7b...\x7d"

/-- `(x or "")` coerced to a string. -/
def jStrD (o : Option JVal) : String :=
  match o with
  | none => ""
  | some v => if jTruthy v then jStr v else ""

mutual

/-- `json.dumps(v, ensure_ascii=False)` (no string escaping: the modelled
payload strings contain no quotes or backslashes). -/
def jdump : JVal → String
  | .null => "null"
  | .jbool b => if b then "true" else "false"
  | .num q => numRepr q
  | .str s => "\"" ++ s ++ "\""
  | .arr xs => "[" ++ jdumpArr xs ++ "]"
  | .obj fs => "\x7b" ++ jdumpObj fs ++ "\x7d"

/-- Array elements, `", "`-separated. -/
def jdumpArr : List JVal → String
  | [] => ""
  | [x] => jdump x
  | x :: y :: xs => jdump x ++ ", " ++ jdumpArr (y :: xs)

/-- Object entries, `"k": v` and `", "`-separated. -/
def jdumpObj : List (String × JVal) → String
  | [] => ""
  | [(k, v)] => "\"" ++ k ++ "\": " ++ jdump v
  | (k, v) :: f :: fs => "\"" ++ k ++ "\": " ++ jdump v ++ ", " ++ jdumpObj (f :: fs)

end

/-! ### Promotion classifier (`normalize_promo`) -/

/-- `normalize_promo(ptype, source_list, charge_type, raw, promotion_id)`. -/
def normalize_promo (ptype : Option String) (source_list : String)
    (charge_type : String := "") (raw : JVal := .null)
    (promotion_id : Option String := none) : String :=
  let text := pyStrip (String.intercalate " "
    (List.filter (fun x => x ≠ "") [ptype.getD "", charge_type]))
  let raw_obj := if jTruthy raw then raw else JVal.obj []
  let raw_str := lowerStr (jdump raw_obj)
  if source_list = "CouponPaymentEventList" then "Coupon"
  else if source_list = "SellerDealPaymentEventList" then
    let et := upperStr (jStrD (pyJOr (jget raw_obj "EventType")
      (jget raw_obj "eventType")))
    let desc := lowerStr (jStrD (pyJOr (jget raw_obj "DealDescription")
      (jget raw_obj "dealDescription")))
    let pid := if promotion_id.getD "" ≠ "" then promotion_id.getD ""
      else jStrD (pyJOr (jget raw_obj "DealId") (jget raw_obj "dealId"))
    if containsSub "LIGHTNING".data et.data ||
        containsSub "blitzangebot".data desc.data ||
        containsSub "lightning".data desc.data ||
        rxWord "blitzangebot" (lowerStr pid).data then "LightningDeal"
    else if containsSub "BEST".data et.data ||
        containsSub "7-DAY".data et.data ||
        containsSub "7 DAY".data et.data ||
        containsSub "best deal".data desc.data then "BestDeal"
    else "Deal"
  else
    match (if promotion_id.getD "" = "" then none
      else firstMatch1 PROMO_ID_REGEXES (lowerStr (promotion_id.getD "")).data) with
    | some lbl => lbl
    | none =>
      match firstMatch2 PROMO_REGEXES (lowerStr text).data raw_str.data with
      | some lbl => lbl
      | none =>
        if lowerStr charge_type = "promotion" ∧ source_list = "ShipmentEventList"
        then "Promo_Item"
        else if ptype = some "PromotionMetaDataDefinitionValue"
        then "Promotion(Unknown)"
        else pyStrip (pyStrD ptype (if charge_type ≠ "" then charge_type
          else "Promotion"))

/-! ### Money and dates -/

/-- A parsed money object (`{"CurrencyCode": …, "Amount"/"CurrencyAmount": …}`):
`amount` is `to_decimal` of the amount field (`none` for an absent,
null, empty or unparsable value), `currency` the
`CurrencyCode`/`currencyCode` text (or `""`). -/
structure Money where
  amount : Option ℚ
  currency : String
deriving DecidableEq, Repr

/-- `money_amount(m)`: a missing/falsy money object gives `(None, "")`. -/
def money_amount (m : Option Money) : Option ℚ × String :=
  match m with
  | none => (none, "")
  | some mm => (mm.amount, mm.currency)

/-- Calendar day index of a timestamp (floor division; `.date()` of the
datetime living on that timeline). -/
def dateOf (t : ℤ) : ℤ := t.ediv 86400

/-- Run configuration resolved at startup (env-driven in the source). -/
structure Config where
  /-- The configured local timezone as a fixed offset in seconds. -/
  tzOff : ℤ
  /-- `datetime.now(timezone.utc)` at extraction time. -/
  nowUtc : ℤ
  /-- `ORDERS_YEAR`. -/
  year : ℤ
  /-- `ORDERS_MONTH`. -/
  month : ℤ
  /-- `MP_CODE`. -/
  marketplace : String
  /-- `TENANT_ID`. -/
  tenant : String
  /-- `datetime(ORDERS_YEAR, ORDERS_MONTH, 1, tzinfo=TZ).astimezone(utc)`. -/
  monthStartUtc : ℤ
deriving DecidableEq, Repr

/-- `event_dt`: the resolved event timestamp — `posted` is the parsed
value of the first present field among
`PostedDate/postedDate/EventDate/eventDate/Date/date` (`none` when
absent or unparsable); fall back to group end, then group start, then
the current time. -/
def event_dt (posted : Option ℤ) (group_start group_end : Option ℤ)
    (now : ℤ) : ℤ :=
  match posted with
  | some dt => dt
  | none =>
    match group_end with
    | some ge => ge
    | none =>
      match group_start with
      | some gs => gs
      | none => now

/-- `event_date_local_iso`: (local calendar date, UTC timestamp). -/
def event_date_local_iso (cfg : Config) (posted : Option ℤ)
    (gs ge : Option ℤ) : ℤ × ℤ :=
  let dt_utc := event_dt posted gs ge cfg.nowUtc
  (dateOf (dt_utc + cfg.tzOff), dt_utc)

/-- The extractors' month filter
`month_start_local.date() <= day < month_next_local.date()` where
`msl`/`mnl` are the local month-boundary timestamps. -/
def inMonth (msl mnl day : ℤ) : Bool :=
  decide (dateOf msl ≤ day) && decide (day < dateOf mnl)

/-! ### Raw event records

Each record lists exactly the fields the corresponding extractor reads.
Ad hoc field-name fallback chains that only tolerate PascalCase/camelCase
(or legacy) spellings of the *same* field (`AmazonOrderId or OrderId or
amazonOrderId or orderId`, `FeeType or Type or feeType or type`,
`ChargeAmount or Amount or …`, `TotalAmount or totalAmount or Amount or
amount`, `PromotionId or promotionId or DealId or dealId or CouponId or
couponId`, `RefundChargeList or ChargeList`, `RefundFeeList or FeeList`,
`ChargeList or chargeList`, `FeeList or feeList`, the six date field
names) are collapsed into one record field holding the first truthy
value of the chain. -/

structure FeeEntry where
  feeType : Option String
  feeAmount : Option Money
deriving DecidableEq, Repr

structure ChargeEntry where
  chargeType : Option String
  chargeAmount : Option Money
deriving DecidableEq, Repr

structure PromoEntry where
  promotionType : Option String
  promotionId : Option String
  promotionAmount : Option Money
  /-- The underlying promotion dict (serialized for the classifier). -/
  raw : JVal

structure ShipItem where
  sellerSKU : Option String
  asin : Option String
  quantityShipped : Option ℤ
  quantityOrdered : Option ℤ
  itemFeeList : List FeeEntry
  itemChargeList : List ChargeEntry
  promotionList : List PromoEntry

structure ShipAdjItem where
  sellerSKU : Option String
  asin : Option String
  itemFeeList : List FeeEntry

structure ShipmentEvent where
  posted : Option ℤ
  amazonOrderId : Option String
  shipmentItemList : List ShipItem
  shipmentItemAdjustmentList : List ShipAdjItem

structure SvcFee where
  feeType : Option String
  feeDescription : Option String
  feeAmount : Option Money
deriving DecidableEq, Repr

structure ServiceFeeEvent where
  posted : Option ℤ
  amazonOrderId : Option String
  sellerSKU : Option String
  asin : Option String
  feeList : List SvcFee
deriving DecidableEq, Repr

/-- An entry of a `ShipmentItemList`/`ShipmentItemAdjustmentList` read
only for quantities. -/
structure QtyItem where
  sellerSKU : Option String
  asin : Option String
  quantityShipped : Option ℤ
  quantityOrdered : Option ℤ
deriving DecidableEq, Repr

structure RefundAdjItem where
  sellerSKU : Option String
  asin : Option String
  quantityShipped : Option ℤ
  quantityOrdered : Option ℤ
  itemChargeAdjustmentList : List ChargeEntry
  itemFeeAdjustmentList : List FeeEntry
deriving DecidableEq, Repr

structure RefundEvent where
  posted : Option ℤ
  orderId : Option String
  sellerSKU : Option String
  asin : Option String
  shipmentItemAdjustmentList : List RefundAdjItem
  shipmentItemList : List QtyItem
  /-- `ev.get("RefundChargeList") or ev.get("ChargeList") or []` (first
  truthy, i.e. first nonempty). -/
  chargeLists : List ChargeEntry
  /-- `ev.get("RefundFeeList") or ev.get("FeeList") or []`. -/
  feeLists : List FeeEntry
  /-- The full event document, walked by the structural scan. -/
  raw : JVal

structure GenericEvent where
  posted : Option ℤ
  orderId : Option String
  sellerSKU : Option String
  asin : Option String
  shipmentItemAdjustmentList : List QtyItem
  shipmentItemList : List QtyItem
  chargeList : List ChargeEntry
  feeList : List FeeEntry
  totalAmount : Option Money
  promotionId : Option String
  /-- The full event document (passed to the classifier as `raw=ev`). -/
  raw : JVal

structure AdjustmentEvent where
  posted : Option ℤ
  amazonOrderId : Option String
  adjustmentType : Option String
  adjustmentAmount : Option Money
deriving DecidableEq, Repr

/-- One group's `FinancialEvents` payload: the named event lists.
`generic` models `events.get(list_name)` for the generic-shaped lists. -/
structure Events where
  shipmentEventList : List ShipmentEvent
  serviceFeeEventList : List ServiceFeeEvent
  refundEventList : List RefundEvent
  adjustmentEventList : List AdjustmentEvent
  generic : String → List GenericEvent

/-! ### Ledger rows and accumulator state -/

/-- One entry of `all_rows` (the flat audit line), in source order:
`[date_local, category, typ, cur, float(amount_signed),
float(amount_abs), order_id or "", sku or "", asin or "", group_id or "",
source_list or "", iso_z(posted_at_utc)]`. -/
structure Row where
  date_local : ℤ
  category : String
  typ : String
  cur : String
  amount_signed : ℚ
  amount_abs : ℚ
  order_id : String
  sku : String
  asin : String
  group_id : String
  source_list : String
  posted_at : ℤ
deriving DecidableEq, Repr

/-- `(order_id | None, sku | "_ORDER_LEVEL_", asin | "", currency)`. -/
abbrev AggKey := Option String × String × String × String

/-- `(order_id, sku, asin, phase)`. -/
abbrev QtyKey := String × String × String × String

/-- The promotion dedup key
`(order, sku, asin, bucket, float(amount), currency, iso timestamp,
group)`; the ISO timestamp is modelled by the timestamp itself. -/
structure PromoKey where
  order : String
  sku : String
  asin : String
  bucket : String
  amount : ℚ
  currency : String
  posted : ℤ
  group : String
deriving DecidableEq, Repr

/-- An `unknown_rows` entry: `[order, source_list, ptype, charge_type,
json.dumps(pr), float(amt or 0), cur]`. -/
structure UnknownRow where
  order : String
  source_list : String
  ptype : String
  charge_type : String
  raw_snippet : String
  amount : ℚ
  currency : String
deriving DecidableEq, Repr

/-- The run-scoped mutable containers threaded through every extractor:
the flat ledger, the three accumulator maps, the quantity map and the
promotion dedup set with its counter, the unknown-promotion side channel
and the refund-scan counter. -/
structure St where
  all_rows : List Row
  abs_by_key_all : List (AggKey × List (String × ℚ))
  signed_by_key_all : List (AggKey × List (String × ℚ))
  signed_by_cat_key_all : List (AggKey × List (String × ℚ))
  qty_by_key_phase : List (QtyKey × ℤ)
  promo_seen : List PromoKey
  promo_dup_skipped : ℕ
  unknown_rows : List UnknownRow
  refund_scan_used : ℕ
deriving DecidableEq, Repr

/-- The empty run state. -/
def St.init : St := ⟨[], [], [], [], [], [], 0, [], 0⟩

/-- `map.setdefault(key, defaultdict(0))[typ] += a`. -/
def bumpMap (m : List (AggKey × List (String × ℚ))) (k : AggKey) (t : String)
    (a : ℚ) : List (AggKey × List (String × ℚ)) :=
  let inner := (dget m k).getD []
  dset m k (dset inner t (((dget inner t).getD 0) + a))

/-- `add_row_and_accumulate`: drop a `None` amount; otherwise append the
audit row (amounts as floats) and bump the three accumulator maps
(amounts as exact decimals, type canonicalized). -/
def add_row_and_accumulate (st : St) (date_local : ℤ) (posted_at_utc : ℤ)
    (category typ cur : String) (amount_signed : Option ℚ)
    (order_id sku asin : Option String) (group_id source_list : String) :
    St :=
  match amount_signed with
  | none => st
  | some a =>
    let amount_abs := |a|
    let row : Row :=
      { date_local := date_local, category := category, typ := typ,
        cur := cur, amount_signed := fl a, amount_abs := fl amount_abs,
        order_id := order_id.getD "", sku := sku.getD "",
        asin := asin.getD "", group_id := group_id,
        source_list := source_list, posted_at := posted_at_utc }
    let sku_val := pyStrD sku "_ORDER_LEVEL_"
    let asin_val := pyStrD asin ""
    let key : AggKey := (pyOpt order_id, sku_val, asin_val, cur)
    let typ_can := canonical_type (some typ)
    { st with
      all_rows := st.all_rows ++ [row],
      abs_by_key_all := bumpMap st.abs_by_key_all key typ_can amount_abs,
      signed_by_key_all := bumpMap st.signed_by_key_all key typ_can a,
      signed_by_cat_key_all :=
        bumpMap st.signed_by_cat_key_all key (category ++ ":" ++ typ_can) a }

/-- `qty_bump`: skip falsy order ids and non-positive quantities. -/
def qty_bump (qmap : List (QtyKey × ℤ)) (order_id sku asin : Option String)
    (qty : Option ℤ) (phase : String) : List (QtyKey × ℤ) :=
  match pyOpt order_id with
  | none => qmap
  | some oid =>
    let q := qty.getD 0
    if q ≤ 0 then qmap
    else
      let key : QtyKey := (oid, pyStrD sku "_ORDER_LEVEL_", pyStrD asin "", phase)
      dset qmap key (((dget qmap key).getD 0) + q)

/-- `nearly_equal(a, b, tol=0.02)`. -/
def nearly_equal (a b : Option ℚ) (tol : ℚ := 1/50) : Bool :=
  match a, b with
  | some a, some b => decide (|a - b| ≤ tol)
  | _, _ => false

/-- Python `a or b` over optional strings keeping the second operand
verbatim (`it.get("SellerSKU") or sku`). -/
def pyOr (a b : Option String) : Option String :=
  match a with
  | none => b
  | some s => if s = "" then b else some s

/-- `sum_item_shipping_components`: (shipping-charge total,
shipping-tax total), absolute values. -/
def sum_item_shipping_components (item : ShipItem) : ℚ × ℚ :=
  item.itemChargeList.foldl (fun (acc : ℚ × ℚ) ch =>
    let ctype := pyStrip (pyStrD ch.chargeType "")
    match (money_amount ch.chargeAmount).1 with
    | none => acc
    | some amt =>
      if ctype = "ShippingCharge" ∨ ctype = "Shipping" then
        (acc.1 + |amt|, acc.2)
      else if ctype = "ShippingTax" then (acc.1, acc.2 + |amt|)
      else acc) (0, 0)

/-! ### Structural fallback scanner (refund extractor) -/

/-- Digits value of a character list (all digits required). -/
def digitsVal : List Char → Option ℕ
  | [] => none
  | l => l.foldl (fun acc c =>
      match acc with
      | none => none
      | some n => if c.isDigit then some (n * 10 + (c.toNat - '0'.toNat)) else none)
      (some 0)

/-- A minimal model of `Decimal(s)` for strings: `[+-]? digits [. digits]?`
with at least one digit (exponent forms and exotic spellings are not
modelled; they do not occur in the scanned payloads). -/
def parseDecStr (s : String) : Option ℚ :=
  let l := s.data
  let (sign, l) : ℚ × List Char :=
    match l with
    | '-' :: t => (-1, t)
    | '+' :: t => (1, t)
    | t => (1, t)
  match l.splitOn '.' with
  | [ip] =>
    match digitsVal ip with
    | some n => some (sign * n)
    | none => none
  | [ip, fp] =>
    if ip = [] ∧ fp = [] then none
    else
      match (if ip = [] then some 0 else digitsVal ip),
        (if fp = [] then some 0 else digitsVal fp) with
      | some n, some f => some (sign * ((n : ℚ) + (f : ℚ) / (10 : ℚ) ^ fp.length))
      | _, _ => none
  | _ => none

/-- `to_decimal` on a JSON value (`None`/`""` and unparsable values give
`None`; numbers are exact). -/
def to_decimal_j : Option JVal → Option ℚ
  | none => none
  | some .null => none
  | some (.num q) => some q
  | some (.str s) => if s = "" then none else parseDecStr s
  | some (.jbool _) => none
  | some (.arr _) => none
  | some (.obj _) => none

/-- `money_amount` on a raw JSON value, as used by the structural scan.
(A truthy non-dict argument raises `AttributeError` in Python; here it
yields `(None, "")` — the scan only feeds it values found under
amount-shaped keys.) -/
def money_amount_j (m : JVal) : Option ℚ × String :=
  if !jTruthy m then (none, "")
  else
    match m with
    | .obj fs =>
      let cur := jStrD (pyJOr (dget fs "CurrencyCode") (dget fs "currencyCode"))
      let val :=
        match dget fs "Amount" with
        | none => dget fs "CurrencyAmount"
        | some .null => dget fs "CurrencyAmount"
        | some v => some v
      (to_decimal_j val, cur)
    | _ => (none, "")

/-- `"/".join(path[-2:])`. -/
def joinTail2 (path : List String) : String :=
  String.intercalate "/" (path.drop (path.length - 2))

mutual

/-- `scan_money_components`: walk every nested object/array; emit a
`RefundFee` line for any non-null `FeeAmount` and a `RefundCharge` line
for any dict-valued `ChargeAmount`/`Amount`, labelled with the nearest
type hint (else the last two path segments). -/
def scan_money_components : JVal → List String →
    List (String × String × Option ℚ × String)
  | .obj fs, path =>
    let typ0 := jStrD (pyJOr (dget fs "FeeType")
      (pyJOr (dget fs "ChargeType") (dget fs "Type")))
    let typ := if typ0 ≠ "" then typ0 else joinTail2 path
    (match dget fs "FeeAmount" with
     | none => []
     | some .null => []
     | some v => [("RefundFee", typ, (money_amount_j v).1, (money_amount_j v).2)]) ++
    (match pyJOr (dget fs "ChargeAmount") (dget fs "Amount") with
     | some (.obj cfs) =>
       [("RefundCharge", typ, (money_amount_j (.obj cfs)).1,
         (money_amount_j (.obj cfs)).2)]
     | _ => []) ++
    scanFields fs path
  | .arr xs, path => scanArr xs path 0
  | _, _ => []

/-- Recurse into object fields (`for k, v in obj.items()`). -/
def scanFields : List (String × JVal) → List String →
    List (String × String × Option ℚ × String)
  | [], _ => []
  | (k, v) :: t, path =>
    scan_money_components v (path ++ [k]) ++ scanFields t path

/-- Recurse into array elements (`for i, v in enumerate(obj)`). -/
def scanArr : List JVal → List String → ℕ →
    List (String × String × Option ℚ × String)
  | [], _, _ => []
  | v :: t, path, i =>
    scan_money_components v (path ++ ["[" ++ toString i ++ "]"]) ++
      scanArr t path (i + 1)

end

/-! ### Extractors -/

/-- Python `s.replace(pat, rep)` (all occurrences, left to right). -/
def replaceAllL (pat rep : List Char) : List Char → List Char
  | [] => []
  | c :: t =>
    if h : pat ≠ [] ∧ pat.isPrefixOf (c :: t) then
      rep ++ replaceAllL pat rep ((c :: t).drop pat.length)
    else c :: replaceAllL pat rep t
termination_by l => l.length
decreasing_by
  · simp only [List.length_drop, List.length_cons]
    have : pat.length ≠ 0 := by
      simpa [List.length_eq_zero] using h.1
    omega
  · simp

/-- Python `s.replace(pat, rep)` on strings. -/
def pyReplace (s pat rep : String) : String :=
  String.mk (replaceAllL pat.data rep.data s.data)

/-- One `ItemFeeList` entry of a shipment item. -/
def ship_fee_step (day dt : ℤ) (order_id sku asin : Option String)
    (gid : String) (st : St) (fee : FeeEntry) : St :=
  let (amt, cur) := money_amount fee.feeAmount
  add_row_and_accumulate st day dt "ShipmentItemFee" (pyStrD fee.feeType "")
    cur amt order_id sku asin gid "ShipmentEventList"

/-- One `ItemChargeList` entry of a shipment item (`None` amounts are
skipped explicitly). -/
def ship_charge_step (day dt : ℤ) (order_id sku asin : Option String)
    (gid : String) (st : St) (ch : ChargeEntry) : St :=
  let (amt, cur) := money_amount ch.chargeAmount
  match amt with
  | none => st
  | some a =>
    let ctype_raw := pyStrip (pyStrD ch.chargeType "")
    add_row_and_accumulate st day dt "ShipmentItemCharge" ctype_raw cur
      (some a) order_id sku asin gid "ShipmentEventList"

/-- One `PromotionList` entry: classify, amount-matching reclassification
to `ShipPromotion`, unknown-sample side channel, dedup, emit. -/
def ship_promo_step (day dt : ℤ) (order_id sku asin : Option String)
    (gid : String) (shipTot shipTax : ℚ) (st : St) (pr : PromoEntry) : St :=
  let ptype := pyStrD pr.promotionType ""
  let pid := pyStrD pr.promotionId ""
  let (amt, cur) := money_amount pr.promotionAmount
  let bucket0 := normalize_promo (some ptype) "ShipmentEventList" "" pr.raw (some pid)
  let bucket :=
    match amt with
    | some a =>
      if (bucket0 = "Promotion(Unknown)" ∨ bucket0 = "Deal") ∧ a < 0 then
        if shipTot ≠ 0 ∧ nearly_equal (some |a|) (some shipTot) then "ShipPromotion"
        else if shipTax ≠ 0 ∧ nearly_equal (some |a|) (some shipTax) then "ShipPromotion"
        else bucket0
      else bucket0
    | none => bucket0
  if bucket = "Promotion(Unknown)" ∧ (amt = none ∨ |amt.getD 0| < 1/200) then
    { st with unknown_rows := st.unknown_rows ++
      [⟨pyStrD order_id "", "ShipmentEventList", ptype, "",
        jdump pr.raw, fl (amt.getD 0), cur⟩] }
  else
    let k : PromoKey :=
      ⟨pyStrD order_id "", pyStrD sku "_ORDER_LEVEL_", pyStrD asin "",
        bucket, fl (amt.getD 0), cur, dt, gid⟩
    if k ∈ st.promo_seen then
      { st with promo_dup_skipped := st.promo_dup_skipped + 1 }
    else
      add_row_and_accumulate
        { st with promo_seen := st.promo_seen ++ [k] }
        day dt "Promotion" bucket cur amt order_id sku asin gid
        "ShipmentEventList"

/-- One `ShipmentItemList` entry. -/
def ship_item_step (day dt : ℤ) (order_id : Option String) (gid : String)
    (st : St) (item : ShipItem) : St :=
  let sku := item.sellerSKU
  let asin := item.asin
  let qty_fin := pyIntOr item.quantityShipped item.quantityOrdered
  let st := { st with qty_by_key_phase := qty_bump st.qty_by_key_phase order_id sku asin qty_fin "Payment" }
  let totals := sum_item_shipping_components item
  let st := item.itemFeeList.foldl (ship_fee_step day dt order_id sku asin gid) st
  let st := item.itemChargeList.foldl (ship_charge_step day dt order_id sku asin gid) st
  item.promotionList.foldl
    (ship_promo_step day dt order_id sku asin gid totals.1 totals.2) st

/-- One `ShipmentItemAdjustmentList` entry. -/
def ship_adj_step (day dt : ℤ) (order_id : Option String) (gid : String)
    (st : St) (item : ShipAdjItem) : St :=
  item.itemFeeList.foldl (fun st fee =>
    let (amt, cur) := money_amount fee.feeAmount
    add_row_and_accumulate st day dt "ShipmentItemAdjustmentFee"
      (pyStrD fee.feeType "") cur amt order_id item.sellerSKU item.asin gid
      "ShipmentEventList") st

/-- One `ShipmentEventList` event (month filter, then items and
adjustments). -/
def shipment_event_step (cfg : Config) (gid : String) (gs ge : Option ℤ)
    (msl mnl : ℤ) (st : St) (ev : ShipmentEvent) : St :=
  let dd := event_date_local_iso cfg ev.posted gs ge
  if !inMonth msl mnl dd.1 then st
  else
    let order_id := ev.amazonOrderId
    let st := ev.shipmentItemList.foldl (ship_item_step dd.1 dd.2 order_id gid) st
    ev.shipmentItemAdjustmentList.foldl (ship_adj_step dd.1 dd.2 order_id gid) st

/-- `extract_from_shipment`. -/
def extract_from_shipment (cfg : Config) (events : Events) (st : St)
    (gid : String) (gs ge : Option ℤ) (msl mnl : ℤ) : St :=
  events.shipmentEventList.foldl (shipment_event_step cfg gid gs ge msl mnl) st

/-- One `FeeList` entry of a service-fee event: `Vine`/`LightningDeal`/
`BestDeal` substring classification over type + description. -/
def service_fee_step (day dt : ℤ) (order_id sku asin : Option String)
    (gid : String) (st : St) (fee : SvcFee) : St :=
  let (amt, cur) := money_amount fee.feeAmount
  let ftype_raw := pyStrD fee.feeType ""
  let fdesc := pyStrD fee.feeDescription ""
  let l := lowerStr (ftype_raw ++ " " ++ fdesc)
  let ftype :=
    if containsSub "vine".data l.data then "VineFee"
    else if containsSub "lightning".data l.data ||
      containsSub "blitzangebot".data l.data then "LightningDealFee"
    else if containsSub "best deal".data l.data ||
      containsSub "7-day".data l.data ||
      containsSub "7 day".data l.data then "BestDealFee"
    else if ftype_raw ≠ "" then ftype_raw else "ServiceFee"
  add_row_and_accumulate st day dt "ServiceFee" ftype cur amt order_id sku
    asin gid "ServiceFeeEventList"

/-- One `ServiceFeeEventList` event. -/
def service_event_step (cfg : Config) (gid : String) (gs ge : Option ℤ)
    (msl mnl : ℤ) (st : St) (ev : ServiceFeeEvent) : St :=
  let dd := event_date_local_iso cfg ev.posted gs ge
  if !inMonth msl mnl dd.1 then st
  else
    ev.feeList.foldl
      (service_fee_step dd.1 dd.2 ev.amazonOrderId ev.sellerSKU ev.asin gid) st

/-- `extract_from_service_fee`. -/
def extract_from_service_fee (cfg : Config) (events : Events) (st : St)
    (gid : String) (gs ge : Option ℤ) (msl mnl : ℤ) : St :=
  events.serviceFeeEventList.foldl (service_event_step cfg gid gs ge msl mnl) st

/-- One explicit refund charge entry. -/
def refund_charge_step (day dt : ℤ) (order_id sku asin : Option String)
    (gid : String) (st : St) (ch : ChargeEntry) : St :=
  let (amt, cur) := money_amount ch.chargeAmount
  add_row_and_accumulate st day dt "RefundCharge" (pyStrD ch.chargeType "")
    cur amt order_id sku asin gid "RefundEventList"

/-- One explicit refund fee entry. -/
def refund_fee_step (day dt : ℤ) (order_id sku asin : Option String)
    (gid : String) (st : St) (fee : FeeEntry) : St :=
  let (amt, cur) := money_amount fee.feeAmount
  add_row_and_accumulate st day dt "RefundFee" (pyStrD fee.feeType "")
    cur amt order_id sku asin gid "RefundEventList"

/-- One `ShipmentItemAdjustmentList` entry of a refund event: its charge
and fee adjustment sub-lists. -/
def refund_adj_step (day dt : ℤ) (order_id sku asin : Option String)
    (gid : String) (st : St) (item : RefundAdjItem) : St :=
  let sku_i := item.sellerSKU
  let asin_i := item.asin
  let st := item.itemChargeAdjustmentList.foldl (fun st ch =>
    let (amt, cur) := money_amount ch.chargeAmount
    add_row_and_accumulate st day dt "RefundChargeAdjustment"
      (pyStrD ch.chargeType "") cur amt order_id (pyOr sku_i sku)
      (pyOr asin_i asin) gid "RefundEventList") st
  item.itemFeeAdjustmentList.foldl (fun st fee =>
    let (amt, cur) := money_amount fee.feeAmount
    add_row_and_accumulate st day dt "RefundFeeAdjustment"
      (pyStrD fee.feeType "") cur amt order_id (pyOr sku_i sku)
      (pyOr asin_i asin) gid "RefundEventList") st

/-- Does a refund event carry explicit structured fee/charge data
(event-level refund charge/fee lists, or any shipment-item-adjustment
entry with charge- or fee-adjustment data)? -/
def refund_has_explicit (ev : RefundEvent) : Bool :=
  !ev.chargeLists.isEmpty || !ev.feeLists.isEmpty ||
    ev.shipmentItemAdjustmentList.any (fun item =>
      !item.itemChargeAdjustmentList.isEmpty ||
        !item.itemFeeAdjustmentList.isEmpty)

/-- One `RefundEventList` event: quantities, explicit lists, adjustment
entries, and — only when no explicit structured data exists anywhere —
the recursive structural scan. -/
def refund_event_step (cfg : Config) (gid : String) (gs ge : Option ℤ)
    (msl mnl : ℤ) (st : St) (ev : RefundEvent) : St :=
  let dd := event_date_local_iso cfg ev.posted gs ge
  if !inMonth msl mnl dd.1 then st
  else
    let day := dd.1
    let dt := dd.2
    let order_id := ev.orderId
    let sku := ev.sellerSKU
    let asin := ev.asin
    let st := ev.shipmentItemAdjustmentList.foldl (fun st it =>
      { st with qty_by_key_phase := qty_bump st.qty_by_key_phase order_id (pyOr it.sellerSKU sku) (pyOr it.asin asin) (pyIntOr it.quantityShipped it.quantityOrdered) "Refund" }) st
    let st := ev.shipmentItemList.foldl (fun st it =>
      { st with qty_by_key_phase := qty_bump st.qty_by_key_phase order_id (pyOr it.sellerSKU sku) (pyOr it.asin asin) (pyIntOr it.quantityShipped it.quantityOrdered) "Refund" }) st
    let st := ev.chargeLists.foldl (refund_charge_step day dt order_id sku asin gid) st
    let st := ev.feeLists.foldl (refund_fee_step day dt order_id sku asin gid) st
    let st := ev.shipmentItemAdjustmentList.foldl (refund_adj_step day dt order_id sku asin gid) st
    if refund_has_explicit ev then st
    else
      let bucket := scan_money_components ev.raw ["RefundEvent"]
      let st := bucket.foldl (fun st e =>
        add_row_and_accumulate st day dt e.1 e.2.1 e.2.2.2 e.2.2.1 order_id
          sku asin gid "RefundEventList/Scan") st
      { st with refund_scan_used := st.refund_scan_used + 1 }

/-- `extract_from_refund`. -/
def extract_from_refund (cfg : Config) (events : Events) (st : St)
    (gid : String) (gs ge : Option ℤ) (msl mnl : ℤ) : St :=
  events.refundEventList.foldl (refund_event_step cfg gid gs ge msl mnl) st

/-- One `ChargeList` entry of a generic event. -/
def generic_charge_step (day dt : ℤ) (order_id sku asin : Option String)
    (gid list_name stem : String) (st : St) (ch : ChargeEntry) : St :=
  let (amt, cur) := money_amount ch.chargeAmount
  add_row_and_accumulate st day dt (stem ++ "Charge")
    (pyStrD ch.chargeType "") cur amt order_id sku asin gid list_name

/-- One `FeeList` entry of a generic event. -/
def generic_fee_step (day dt : ℤ) (order_id sku asin : Option String)
    (gid list_name stem : String) (st : St) (fee : FeeEntry) : St :=
  let (amt, cur) := money_amount fee.feeAmount
  add_row_and_accumulate st day dt (stem ++ "Fee")
    (pyStrD fee.feeType "") cur amt order_id sku asin gid list_name

/-- One event of a generic fee/charge list: quantities (refund-phased
lists only), charges, fees, and — for the two payment lists — one
order-level promotion line through the classifier and the dedup set. -/
def generic_event_step (cfg : Config) (gid : String) (gs ge : Option ℤ)
    (msl mnl : ℤ) (list_name stem : String) (phase_hint : Option String)
    (st : St) (ev : GenericEvent) : St :=
  let dd := event_date_local_iso cfg ev.posted gs ge
  if !inMonth msl mnl dd.1 then st
  else
    let day := dd.1
    let dt := dd.2
    let order_id := ev.orderId
    let sku := ev.sellerSKU
    let asin := ev.asin
    let st :=
      match phase_hint with
      | none => st
      | some ph =>
        let st := ev.shipmentItemAdjustmentList.foldl (fun st it =>
          { st with qty_by_key_phase := qty_bump st.qty_by_key_phase order_id (pyOr it.sellerSKU sku) (pyOr it.asin asin) (pyIntOr it.quantityShipped it.quantityOrdered) ph }) st
        ev.shipmentItemList.foldl (fun st it =>
          { st with qty_by_key_phase := qty_bump st.qty_by_key_phase order_id (pyOr it.sellerSKU sku) (pyOr it.asin asin) (pyIntOr it.quantityShipped it.quantityOrdered) ph }) st
    let st := ev.chargeList.foldl (generic_charge_step day dt order_id sku asin gid list_name stem) st
    let st := ev.feeList.foldl (generic_fee_step day dt order_id sku asin gid list_name stem) st
    if list_name = "CouponPaymentEventList" ∨
        list_name = "SellerDealPaymentEventList" then
      let mc := money_amount ev.totalAmount
      let amt_ev := mc.1
      let cur_ev := mc.2
      let pid := pyStrD ev.promotionId ""
      let bucket := normalize_promo none list_name "" ev.raw (some pid)
      let k : PromoKey :=
        ⟨pyStrD order_id "", pyStrD sku "_ORDER_LEVEL_", pyStrD asin "",
          bucket, fl (amt_ev.getD 0), cur_ev, dt, gid⟩
      if k ∈ st.promo_seen then
        { st with promo_dup_skipped := st.promo_dup_skipped + 1 }
      else
        add_row_and_accumulate
          { st with promo_seen := st.promo_seen ++ [k] }
          day dt "Promotion" bucket cur_ev amt_ev order_id sku asin gid
          list_name
    else st

/-- `extract_generic_fee_charge_list` (parameterized by the list name). -/
def extract_generic_fee_charge_list (cfg : Config) (events : Events)
    (st : St) (gid : String) (gs ge : Option ℤ) (list_name : String)
    (msl mnl : ℤ) : St :=
  let stem := pyReplace list_name "EventList" ""
  let phase_hint :=
    if list_name = "GuaranteeClaimEventList" ∨
      list_name = "ChargebackEventList" then some "Refund" else none
  (events.generic list_name).foldl
    (generic_event_step cfg gid gs ge msl mnl list_name stem phase_hint) st

/-- One `AdjustmentEventList` event. -/
def adjustment_event_step (cfg : Config) (gid : String) (gs ge : Option ℤ)
    (msl mnl : ℤ) (st : St) (ev : AdjustmentEvent) : St :=
  let dd := event_date_local_iso cfg ev.posted gs ge
  if !inMonth msl mnl dd.1 then st
  else
    let typ_can := canonical_type (some (pyStrD ev.adjustmentType ""))
    let mc := money_amount ev.adjustmentAmount
    add_row_and_accumulate st dd.1 dd.2 "Adjustment" typ_can mc.2 mc.1
      ev.amazonOrderId none none gid "AdjustmentEventList"

/-- `extract_from_adjustments`. -/
def extract_from_adjustments (cfg : Config) (events : Events) (st : St)
    (gid : String) (gs ge : Option ℤ) (msl mnl : ℤ) : St :=
  events.adjustmentEventList.foldl (adjustment_event_step cfg gid gs ge msl mnl) st

/-- The fixed list-name sequence of `run()`'s extraction loop. -/
def RUN_EVENT_LISTS : List String :=
  ["AdjustmentEventList",
   "GuaranteeClaimEventList",
   "ChargebackEventList",
   "RemovalShipmentEventList",
   "RemovalShipmentAdjustmentEventList",
   "SellerDealPaymentEventList",
   "CouponPaymentEventList",
   "ProductAdsPaymentEventList",
   "ValueAddedServiceChargeEventList",
   "CapacityReservationBillingEventList",
   "ImagingServicesFeeEventList",
   "NetworkComminglingTransactionEventList"]

/-- One financial event group as fetched: id, start/end, events payload. -/
structure EventGroup where
  gid : String
  gs : Option ℤ
  ge : Option ℤ
  events : Events

/-- `run()`'s extraction pass over one group: shipment, service fee,
refund, then the named lists (adjustments specially). -/
def process_group (cfg : Config) (msl mnl : ℤ) (st : St) (g : EventGroup) : St :=
  let st := extract_from_shipment cfg g.events st g.gid g.gs g.ge msl mnl
  let st := extract_from_service_fee cfg g.events st g.gid g.gs g.ge msl mnl
  let st := extract_from_refund cfg g.events st g.gid g.gs g.ge msl mnl
  RUN_EVENT_LISTS.foldl (fun st name =>
    if name = "AdjustmentEventList" then
      extract_from_adjustments cfg g.events st g.gid g.gs g.ge msl mnl
    else
      extract_generic_fee_charge_list cfg g.events st g.gid g.gs g.ge name msl mnl) st

/-- The whole in-memory extraction phase over all fetched groups. -/
def run_extraction (cfg : Config) (msl mnl : ℤ) (groups : List EventGroup)
    (st : St) : St :=
  groups.foldl (process_group cfg msl mnl) st

/-! ### Account-level aggregation (`push_account_fees_detail`) -/

/-- `is_refund_category`. -/
def pyStartsWith (s pre : String) : Bool := pre.data.isPrefixOf s.data

def is_refund_category (category : String) : Bool :=
  pyStartsWith category "Refund" || pyStartsWith category "GuaranteeClaim" ||
    pyStartsWith category "Chargeback"

/-- The account bucket key `(date, category, type, currency,
event-group, period year, period month)`. -/
structure AcctKey where
  date : ℤ
  category : String
  typ : String
  currency : String
  group_id : String
  period_year : ℤ
  period_month : ℤ
deriving DecidableEq, Repr

/-- One step of the account aggregation loop: rows with an order id are
skipped; otherwise `agg[key] = agg.get(key, 0.0) + float(amt_abs)` in
binary64, and `meta` keeps the first source list seen for the key. -/
def account_fees_step (cfg : Config)
    (acc : List (AcctKey × ℚ) × List (AcctKey × String)) (row : Row) :
    List (AcctKey × ℚ) × List (AcctKey × String) :=
  if row.order_id ≠ "" then acc
  else
    let key : AcctKey := ⟨row.date_local, row.category, row.typ, row.cur,
      row.group_id, cfg.year, cfg.month⟩
    let val := fl row.amount_abs
    let agg' := dset acc.1 key (fl (((dget acc.1 key).getD 0) + val))
    let meta' := if (dget acc.2 key).isSome then acc.2
      else dset acc.2 key row.source_list
    (agg', meta')

/-- The `agg`/`meta` maps of `push_account_fees_detail`. -/
def account_fees_agg (cfg : Config) (all_rows : List Row) :
    List (AcctKey × ℚ) × List (AcctKey × String) :=
  all_rows.foldl (account_fees_step cfg) ([], [])

/-- One persisted account-fee row. -/
structure AccountRow where
  tenant_id : String
  marketplace : String
  date : ℤ
  category : String
  typ : String
  currency : String
  amount : ℚ
  financial_event_group_id : String
  source_list : String
  period_year : ℤ
  period_month : ℤ
deriving DecidableEq, Repr

/-- The payload of `push_account_fees_detail` (`round(float(amount), 2)`;
`float` of a float is the identity). -/
def push_account_fees_payload (cfg : Config) (all_rows : List Row) :
    List AccountRow :=
  let am := account_fees_agg cfg all_rows
  am.1.map (fun kv =>
    { tenant_id := cfg.tenant, marketplace := cfg.marketplace,
      date := kv.1.date, category := kv.1.category, typ := kv.1.typ,
      currency := kv.1.currency, amount := round2 kv.2,
      financial_event_group_id := kv.1.group_id,
      source_list := (dget am.2 kv.1).getD "",
      period_year := cfg.year, period_month := cfg.month })

/-! ### Audit fee lines (`push_fee_lines`) -/

/-- `iso_z(dt)` modelled by an injective rendering of the timestamp. -/
def isoZ (t : ℤ) : String := toString t

/-- `f"{x:.6f}"`: the float formatted with six decimals (correctly
rounded, ties to even; CPython float formatting is correctly rounded).
A negative value rounding to zero loses its sign here (CPython prints
`-0.000000`); harmless for the dedup semantics. -/
def fmt6 (q : ℚ) : String :=
  let n := roundHalfEven (q * 1000000)
  let sgn := if n < 0 then "-" else ""
  let a := n.natAbs
  let fps := toString (a % 1000000)
  sgn ++ toString (a / 1000000) ++ "." ++
    String.mk (List.replicate (6 - fps.length) '0') ++ fps

/-- `md5`: modelled as the identity on the hashed key string — an
injective stand-in for the digest.  The dedup and conflict-key semantics
depend only on equality of hashes; md5 collisions are assumed absent, as
the code itself assumes. -/
def md5 (s : String) : String := s

/-- One persisted audit line (`rowdict`), with the default
`fee_category`/`fee_type` column configuration. -/
structure FeeLine where
  line_hash : String
  finance_date_utc : ℤ
  finance_date_local : ℤ
  transaction_phase : String
  currency : String
  amount_signed : ℚ
  amount_abs : ℚ
  amazon_order_id : Option String
  seller_sku : Option String
  asin : Option String
  financial_event_group_id : Option String
  source_list : Option String
  marketplace : String
  period_year : ℤ
  period_month : ℤ
  tenant_id : String
  fee_category : String
  fee_type : String
deriving DecidableEq, Repr

/-- The state of the `push_fee_lines` loop: payload built so far, the
`LINEHASH_SEEN` set, the `LINEHASH_SKIPPED` counter. -/
structure PushOut where
  payload : List FeeLine
  seen : List String
  skipped : ℕ
deriving DecidableEq, Repr

/-- The 17-component `key_str` hashed for one ledger row: it covers
every persisted field. -/
def fee_line_key_str (cfg : Config) (r : Row) : String :=
  let phase := if is_refund_category r.category then "Refund" else "Payment"
  let cat0 := pyStrip r.category
  let cat_val := if cat0 = "" then "UnknownCategory" else cat0
  let typ0 := pyStrip r.typ
  let typ_val := if typ0 = "" then "UnknownType" else typ0
  let cur0 := pyStrip r.cur
  let cur_val := if cur0 = "" then "EUR" else cur0
  String.intercalate "|"
    [isoZ r.posted_at, toString r.date_local, phase, cat_val, typ_val,
     cur_val, fmt6 r.amount_signed, fmt6 r.amount_abs, r.order_id, r.sku,
     r.asin, r.group_id, r.source_list, cfg.marketplace,
     toString cfg.year, toString cfg.month, cfg.tenant]

/-- The persisted audit line (`rowdict`) built from one ledger row. -/
def fee_line_row (cfg : Config) (r : Row) : FeeLine :=
  let phase := if is_refund_category r.category then "Refund" else "Payment"
  let cat0 := pyStrip r.category
  let cat_val := if cat0 = "" then "UnknownCategory" else cat0
  let typ0 := pyStrip r.typ
  let typ_val := if typ0 = "" then "UnknownType" else typ0
  let cur0 := pyStrip r.cur
  let cur_val := if cur0 = "" then "EUR" else cur0
  { line_hash := md5 (fee_line_key_str cfg r),
    finance_date_utc := r.posted_at,
    finance_date_local := r.date_local,
    transaction_phase := phase,
    currency := cur_val,
    amount_signed := round6 r.amount_signed,
    amount_abs := round6 r.amount_abs,
    amazon_order_id := pyOpt (some r.order_id),
    seller_sku := pyOpt (some r.sku),
    asin := pyOpt (some r.asin),
    financial_event_group_id := pyOpt (some r.group_id),
    source_list := pyOpt (some r.source_list),
    marketplace := cfg.marketplace,
    period_year := cfg.year,
    period_month := cfg.month,
    tenant_id := cfg.tenant,
    fee_category := cat_val,
    fee_type := typ_val }

/-- One row of the `push_fee_lines` loop: build the hash over every
persisted field, drop rows whose hash was already seen in this run,
record the rest.  (The `if not posted_utc_iso` fallback is dead here:
every ledger row carries its timestamp.) -/
def fee_line_step (cfg : Config) (acc : PushOut) (r : Row) : PushOut :=
  if md5 (fee_line_key_str cfg r) ∈ acc.seen then
    { acc with skipped := acc.skipped + 1 }
  else
    { payload := acc.payload ++ [fee_line_row cfg r],
      seen := acc.seen ++ [md5 (fee_line_key_str cfg r)],
      skipped := acc.skipped }

/-- `push_fee_lines` over the ledger, threading the `LINEHASH_SEEN`
state. -/
def push_fee_lines (cfg : Config) (all_rows : List Row)
    (seen0 : List String) : PushOut :=
  all_rows.foldl (fee_line_step cfg) ⟨[], seen0, 0⟩

/-! ### Order/SKU aggregate rows (`run()`, phase split) -/

/-- `last_date_per_sku_phase` key: (order, sku, asin, currency, phase). -/
structure LastKey where
  order : String
  sku : String
  asin : String
  currency : String
  phase : String
deriving DecidableEq, Repr

/-- One step of the last-activity pass (the ISO parse of a row's own
timestamp is the timestamp; the `except` fallbacks are dead here). -/
def last_date_step (m : List (LastKey × ℤ)) (row : Row) :
    List (LastKey × ℤ) :=
  if row.order_id = "" then m
  else
    let phase := if is_refund_category row.category then "Refund" else "Payment"
    let d := row.posted_at
    let keyp : LastKey := ⟨row.order_id, pyStrD (some row.sku) "_ORDER_LEVEL_",
      row.asin, row.cur, phase⟩
    dset m keyp (max ((dget m keyp).getD d) d)

/-- The `last_date_per_sku_phase` map. -/
def last_date_per_sku_phase (all_rows : List Row) : List (LastKey × ℤ) :=
  all_rows.foldl last_date_step []

/-- One order/SKU aggregate row. -/
structure FeeRow where
  amazon_order_id : String
  seller_sku : String
  asin : Option String
  marketplace : String
  currency : String
  fee_total : ℚ
  fee_breakdown : List (String × ℚ)
  transaction_phase : String
  last_posted_at : ℤ
  period_year : ℤ
  period_month : ℤ
  tenant_id : String
  quantity : ℤ
deriving DecidableEq, Repr

/-- `catkey.split(":", 1)[0]`: the prefix of the key up to the first
colon (the whole key when it has none). -/
def catPrefix (s : String) : String :=
  String.mk (s.data.takeWhile (fun c => c ≠ ':'))

/-- One step of the Payment/Refund split: route the signed entry to the
refund sub-map when its category prefix is a refund category, else to
the payment sub-map. -/
def split_phase_step (acc : List (String × ℚ) × List (String × ℚ))
    (kv : String × ℚ) : List (String × ℚ) × List (String × ℚ) :=
  if is_refund_category (catPrefix kv.1) then (acc.1, dset acc.2 kv.1 kv.2)
  else (dset acc.1 kv.1 kv.2, acc.2)

def split_phase_maps (cat_map_all : List (String × ℚ)) :
    List (String × ℚ) × List (String × ℚ) :=
  cat_map_all.foldl split_phase_step ([], [])

/-- Build one aggregate row for a phase:
`fee_total = float(sum(abs(v)))` over this phase's sub-map only,
breakdown = the signed sub-map with entries converted to floats,
last-activity timestamp (fallback: month start), quantity. -/
def mk_fee_row (cfg : Config) (lastM : List (LastKey × ℤ))
    (qtyM : List (QtyKey × ℤ)) (oid sku_v asin_v cur phase : String)
    (cat_map : List (String × ℚ)) : FeeRow :=
  let sku_l := pyStrD (some sku_v) "_ORDER_LEVEL_"
  let asin_l := pyStrD (some asin_v) ""
  { amazon_order_id := oid,
    seller_sku := sku_l,
    asin := pyOpt (some asin_v),
    marketplace := cfg.marketplace,
    currency := if cur = "" then "EUR" else cur,
    fee_total := fl ((cat_map.map (fun kv => |kv.2|)).sum),
    fee_breakdown := cat_map.map (fun kv => (kv.1, fl kv.2)),
    transaction_phase := phase,
    last_posted_at :=
      (dget lastM ⟨oid, sku_l, asin_l, cur, phase⟩).getD cfg.monthStartUtc,
    period_year := cfg.year,
    period_month := cfg.month,
    tenant_id := cfg.tenant,
    quantity := (dget qtyM (oid, sku_l, asin_l, phase)).getD 0 }

/-- The aggregate rows of one identity key: keys without an order id are
skipped (counted); for each non-empty phase sub-map exactly one row. -/
def rows_for_key (cfg : Config) (lastM : List (LastKey × ℤ))
    (qtyM : List (QtyKey × ℤ)) (k : AggKey)
    (cat_map_all : List (String × ℚ)) : List FeeRow × ℕ :=
  match k.1 with
  | none => ([], 1)
  | some oid =>
    if oid = "" then ([], 1)
    else
      let pm := split_phase_maps cat_map_all
      ((if pm.1.isEmpty then [] else
          [mk_fee_row cfg lastM qtyM oid k.2.1 k.2.2.1 k.2.2.2 "Payment" pm.1]) ++
        (if pm.2.isEmpty then [] else
          [mk_fee_row cfg lastM qtyM oid k.2.1 k.2.2.1 k.2.2.2 "Refund" pm.2]),
        0)

/-- `rows_by_sku` with the skipped-account-level counter. -/
def rows_by_sku (cfg : Config)
    (catM : List (AggKey × List (String × ℚ))) (lastM : List (LastKey × ℤ))
    (qtyM : List (QtyKey × ℤ)) : List FeeRow × ℕ :=
  catM.foldl (fun acc kv =>
    let r := rows_for_key cfg lastM qtyM kv.1 kv.2
    (acc.1 ++ r.1, acc.2 + r.2)) ([], 0)

/-! ### The persistent store collaborator -/

/-- Modelled from the spec: the persistent store's
`upsert(table, rows, conflict_key)` contract — "given a table name, a
set of rows, and a conflict key, performs an insert-or-update keyed on
that conflict key".  A table is a partial map from conflict-key values
to rows; upserting writes each row at its key, in order
(insert-or-replace). -/
def upsertTable {κ α : Type} [DecidableEq κ] (key : α → κ)
    (tbl : κ → Option α) (rows : List α) : κ → Option α :=
  rows.foldl (fun t r => fun k => if k = key r then some r else t k) tbl

/-- The fee-lines conflict key (`FEE_LINES_ON_CONFLICT = "line_hash"`). -/
def feeLineKey (f : FeeLine) : String := f.line_hash

/-- The aggregate-table conflict key (`FEES_ON_CONFLICT`). -/
def feeRowKey (f : FeeRow) :
    String × String × String × ℤ × ℤ × String × String :=
  (f.amazon_order_id, f.seller_sku, f.marketplace, f.period_year,
    f.period_month, f.currency, f.transaction_phase)

/-! ### Dictionary lemmas -/

theorem dget_dset_self {α β : Type} [DecidableEq α] (m : List (α × β))
    (k : α) (v : β) : dget (dset m k v) k = some v := by
  induction m with
  | nil => simp [dget, dset]
  | cons h t ih =>
    obtain ⟨k', v'⟩ := h
    by_cases hk : k' = k
    · subst hk
      simp [dget, dset]
    · simp [dget, dset, hk, ih]

theorem dget_dset_ne {α β : Type} [DecidableEq α] (m : List (α × β))
    (k k' : α) (v : β) (h : k' ≠ k) :
    dget (dset m k v) k' = dget m k' := by
  induction m with
  | nil => simp [dget, dset, Ne.symm h]
  | cons hd t ih =>
    obtain ⟨k'', v''⟩ := hd
    by_cases hk : k'' = k
    · subst hk
      simp only [dset, if_pos rfl]
      simp [dget, Ne.symm h]
    · simp only [dset, if_neg hk]
      simp [dget, ih]

/-- Fold preservation of a state predicate. -/
theorem foldl_pres {α : Type} {P : St → Prop} {f : St → α → St}
    (h : ∀ st a, P st → P (f st a)) (l : List α) :
    ∀ st, P st → P (l.foldl f st) := by
  induction l with
  | nil => intro st h0; exact h0
  | cons x t ih => intro st h0; exact ih _ (h _ _ h0)

/-! ### The ledger-row invariants (C3 / C5 machinery)

`promoKeyOfRow` recovers, from an emitted promotion row, the dedup key
under which it was registered. -/

def promoKeyOfRow (r : Row) : PromoKey :=
  ⟨r.order_id, if r.sku = "" then "_ORDER_LEVEL_" else r.sku, r.asin,
    r.typ, r.amount_signed, r.cur, r.posted_at, r.group_id⟩

/-- The run invariant: every ledger row satisfies
`amount_abs = |amount_signed|`; every promotion row's dedup key is
registered in `promo_seen`; and no two promotion rows share a dedup key. -/
def RowsOK (st : St) : Prop :=
  (∀ r ∈ st.all_rows, r.amount_abs = |r.amount_signed|) ∧
  (∀ r ∈ st.all_rows, r.category = "Promotion" →
    promoKeyOfRow r ∈ st.promo_seen) ∧
  ((st.all_rows.filter (fun r => decide (r.category = "Promotion"))).map
    promoKeyOfRow).Nodup

theorem pyStrD_empty_getD (o : Option String) : pyStrD o "" = o.getD "" := by
  cases o with
  | none => rfl
  | some s =>
    by_cases h : s = "" <;> simp [pyStrD, h]

theorem rowsOK_add_row {st : St} (hOK : RowsOK st) (d p : ℤ)
    (category typ cur : String) (a : Option ℚ) (oid sku asin : Option String)
    (gid src : String) (hcat : category ≠ "Promotion") :
    RowsOK (add_row_and_accumulate st d p category typ cur a oid sku asin gid src) := by
  cases a with
  | none => exact hOK
  | some a =>
    obtain ⟨h1, h2, h3⟩ := hOK
    refine ⟨?_, ?_, ?_⟩
    · intro r hr
      simp only [add_row_and_accumulate, List.mem_append, List.mem_singleton] at hr
      rcases hr with hr | hr
      · exact h1 r hr
      · subst hr
        exact (abs_fl a).symm
    · intro r hr hp
      simp only [add_row_and_accumulate, List.mem_append, List.mem_singleton] at hr
      rcases hr with hr | hr
      · exact h2 r hr hp
      · subst hr
        exact absurd hp hcat
    · simp only [add_row_and_accumulate, List.filter_append]
      have : List.filter (fun r => decide (r.category = "Promotion"))
          [({ date_local := d, category := category, typ := typ, cur := cur,
              amount_signed := fl a, amount_abs := fl |a|,
              order_id := oid.getD "", sku := sku.getD "",
              asin := asin.getD "", group_id := gid, source_list := src,
              posted_at := p } : Row)] = [] := by
        simp [List.filter, hcat]
      rw [this, List.append_nil]
      exact h3

theorem rowsOK_qty {st : St} (hOK : RowsOK st) (x : List (QtyKey × ℤ)) :
    RowsOK { st with qty_by_key_phase := x } := hOK

theorem rowsOK_unknown {st : St} (hOK : RowsOK st) (x : List UnknownRow) :
    RowsOK { st with unknown_rows := x } := hOK

theorem rowsOK_scan_count {st : St} (hOK : RowsOK st) (n : ℕ) :
    RowsOK { st with refund_scan_used := n } := hOK

theorem rowsOK_dup_count {st : St} (hOK : RowsOK st) (n : ℕ) :
    RowsOK { st with promo_dup_skipped := n } := hOK

theorem pyStrD_order_level (sku : Option String) :
    (if sku.getD "" = "" then "_ORDER_LEVEL_" else sku.getD "") =
      pyStrD sku "_ORDER_LEVEL_" := by
  cases sku with
  | none => rfl
  | some s => by_cases h : s = "" <;> simp [pyStrD, h]

/-- The shared shape of the two promotion emission sites: register the
dedup key, or count a suppressed duplicate; the emitted row's recovered
key is exactly the registered key. -/
theorem rowsOK_emit_core {st : St} (hOK : RowsOK st) (d p : ℤ)
    (bucket cur : String) (amt : Option ℚ) (oid sku asin : Option String)
    (gid src : String) :
    RowsOK (
      if (⟨pyStrD oid "", pyStrD sku "_ORDER_LEVEL_", pyStrD asin "",
            bucket, fl (amt.getD 0), cur, p, gid⟩ : PromoKey) ∈ st.promo_seen
      then { st with promo_dup_skipped := st.promo_dup_skipped + 1 }
      else
        add_row_and_accumulate
          { st with promo_seen := st.promo_seen ++
              [⟨pyStrD oid "", pyStrD sku "_ORDER_LEVEL_", pyStrD asin "",
                bucket, fl (amt.getD 0), cur, p, gid⟩] }
          d p "Promotion" bucket cur amt oid sku asin gid src) := by
  set k : PromoKey := ⟨pyStrD oid "", pyStrD sku "_ORDER_LEVEL_",
    pyStrD asin "", bucket, fl (amt.getD 0), cur, p, gid⟩ with hkdef
  obtain ⟨h1, h2, h3⟩ := hOK
  by_cases hk : k ∈ st.promo_seen
  · rw [if_pos hk]
    exact ⟨h1, h2, h3⟩
  · rw [if_neg hk]
    cases amt with
    | none =>
      exact ⟨h1, fun r hr hp => List.mem_append_left _ (h2 r hr hp), h3⟩
    | some a =>
      have hkeys : ∀ x ∈ (st.all_rows.filter
          (fun r => decide (r.category = "Promotion"))).map promoKeyOfRow,
          x ∈ st.promo_seen := by
        intro x hx
        rcases List.mem_map.mp hx with ⟨r, hr, hrx⟩
        have hrm := List.mem_filter.mp hr
        exact hrx ▸ h2 r hrm.1 (of_decide_eq_true hrm.2)
      refine ⟨?_, ?_, ?_⟩
      · intro r hr
        simp only [add_row_and_accumulate, List.mem_append,
          List.mem_singleton] at hr
        rcases hr with hr | hr
        · exact h1 r hr
        · subst hr
          exact (abs_fl a).symm
      · intro r hr hp
        simp only [add_row_and_accumulate, List.mem_append,
          List.mem_singleton] at hr
        rcases hr with hr | hr
        · exact List.mem_append_left _ (h2 r hr hp)
        · subst hr
          apply List.mem_append_right
          simp only [List.mem_singleton]
          show promoKeyOfRow _ = k
          simp only [promoKeyOfRow, hkdef, pyStrD_empty_getD,
            pyStrD_order_level, Option.getD_some]
      · simp only [add_row_and_accumulate, List.filter_append]
        have hsing : List.filter (fun r => decide (r.category = "Promotion"))
            [({ date_local := d, category := "Promotion", typ := bucket,
                cur := cur, amount_signed := fl a, amount_abs := fl |a|,
                order_id := oid.getD "", sku := sku.getD "",
                asin := asin.getD "", group_id := gid, source_list := src,
                posted_at := p } : Row)] =
            [({ date_local := d, category := "Promotion", typ := bucket,
                cur := cur, amount_signed := fl a, amount_abs := fl |a|,
                order_id := oid.getD "", sku := sku.getD "",
                asin := asin.getD "", group_id := gid, source_list := src,
                posted_at := p } : Row)] := by
          simp [List.filter]
        rw [hsing, List.map_append]
        refine List.Nodup.append h3 (by simp) ?_
        intro x hx hx'
        simp only [List.map_cons, List.map_nil, List.mem_singleton] at hx'
        have hxk : x = k := by
          rw [hx']
          simp only [promoKeyOfRow, hkdef, pyStrD_empty_getD,
            pyStrD_order_level, Option.getD_some]
        exact hk (hxk ▸ hkeys x hx)

mutual

/-- Every structural-scan emission is labelled `RefundFee` or
`RefundCharge`. -/
theorem scan_cat : ∀ (v : JVal) (path : List String),
    ∀ x ∈ scan_money_components v path,
      x.1 = "RefundFee" ∨ x.1 = "RefundCharge"
  | .obj fs, path => by
    intro x hx
    simp only [scan_money_components, List.mem_append] at hx
    rcases hx with (hx | hx) | hx
    · rcases hfa : dget fs "FeeAmount" with _ | v'
      · rw [hfa] at hx; simp at hx
      · cases v' <;> rw [hfa] at hx <;> simp_all
    · rcases hca : pyJOr (dget fs "ChargeAmount") (dget fs "Amount") with _ | v'
      · rw [hca] at hx; simp at hx
      · cases v' <;> rw [hca] at hx <;> simp_all
    · exact scanFields_cat fs path x hx
  | .arr xs, path => by
    intro x hx
    simp only [scan_money_components] at hx
    exact scanArr_cat xs path 0 x hx
  | .null, path => by intro x hx; simp [scan_money_components] at hx
  | .jbool b, path => by intro x hx; simp [scan_money_components] at hx
  | .num q, path => by intro x hx; simp [scan_money_components] at hx
  | .str s, path => by intro x hx; simp [scan_money_components] at hx

theorem scanFields_cat : ∀ (fs : List (String × JVal)) (path : List String),
    ∀ x ∈ scanFields fs path, x.1 = "RefundFee" ∨ x.1 = "RefundCharge"
  | [], _ => by intro x hx; simp [scanFields] at hx
  | (k, v) :: t, path => by
    intro x hx
    simp only [scanFields, List.mem_append] at hx
    rcases hx with hx | hx
    · exact scan_cat v (path ++ [k]) x hx
    · exact scanFields_cat t path x hx

theorem scanArr_cat : ∀ (xs : List JVal) (path : List String) (i : ℕ),
    ∀ x ∈ scanArr xs path i, x.1 = "RefundFee" ∨ x.1 = "RefundCharge"
  | [], _, _ => by intro x hx; simp [scanArr] at hx
  | v :: t, path, i => by
    intro x hx
    simp only [scanArr, List.mem_append] at hx
    rcases hx with hx | hx
    · exact scan_cat v (path ++ ["[" ++ toString i ++ "]"]) x hx
    · exact scanArr_cat t path (i + 1) x hx

end

theorem rowsOK_ship_fee_step (day dt : ℤ) (oid sku asin : Option String)
    (gid : String) : ∀ st fee, RowsOK st →
    RowsOK (ship_fee_step day dt oid sku asin gid st fee) := by
  intro st fee hOK
  simp only [ship_fee_step]
  exact rowsOK_add_row hOK _ _ _ _ _ _ _ _ _ _ _ (by decide)

theorem rowsOK_ship_charge_step (day dt : ℤ) (oid sku asin : Option String)
    (gid : String) : ∀ st ch, RowsOK st →
    RowsOK (ship_charge_step day dt oid sku asin gid st ch) := by
  intro st ch hOK
  simp only [ship_charge_step]
  split
  · exact hOK
  · exact rowsOK_add_row hOK _ _ _ _ _ _ _ _ _ _ _ (by decide)

theorem rowsOK_ship_promo_step (day dt : ℤ) (oid sku asin : Option String)
    (gid : String) (t1 t2 : ℚ) : ∀ st pr, RowsOK st →
    RowsOK (ship_promo_step day dt oid sku asin gid t1 t2 st pr) := by
  intro st pr hOK
  simp only [ship_promo_step]
  split
  · exact rowsOK_unknown hOK _
  · exact rowsOK_emit_core hOK _ _ _ _ _ _ _ _ _ _

theorem rowsOK_ship_item_step (day dt : ℤ) (oid : Option String)
    (gid : String) : ∀ st item, RowsOK st →
    RowsOK (ship_item_step day dt oid gid st item) := by
  intro st item hOK
  simp only [ship_item_step]
  apply foldl_pres (rowsOK_ship_promo_step day dt oid _ _ gid _ _)
  apply foldl_pres (rowsOK_ship_charge_step day dt oid _ _ gid)
  apply foldl_pres (rowsOK_ship_fee_step day dt oid _ _ gid)
  exact rowsOK_qty hOK _

theorem rowsOK_ship_adj_step (day dt : ℤ) (oid : Option String)
    (gid : String) : ∀ st item, RowsOK st →
    RowsOK (ship_adj_step day dt oid gid st item) := by
  intro st item hOK
  simp only [ship_adj_step]
  apply foldl_pres ?_ _ _ hOK
  intro st' fee h'
  exact rowsOK_add_row h' _ _ _ _ _ _ _ _ _ _ _ (by decide)

theorem rowsOK_shipment_event_step (cfg : Config) (gid : String)
    (gs ge : Option ℤ) (msl mnl : ℤ) : ∀ st ev, RowsOK st →
    RowsOK (shipment_event_step cfg gid gs ge msl mnl st ev) := by
  intro st ev hOK
  simp only [shipment_event_step]
  split
  · exact hOK
  · apply foldl_pres (rowsOK_ship_adj_step _ _ _ gid)
    exact foldl_pres (rowsOK_ship_item_step _ _ _ gid) _ _ hOK

theorem rowsOK_extract_from_shipment (cfg : Config) (events : Events)
    (gid : String) (gs ge : Option ℤ) (msl mnl : ℤ) : ∀ st, RowsOK st →
    RowsOK (extract_from_shipment cfg events st gid gs ge msl mnl) := by
  intro st hOK
  exact foldl_pres (rowsOK_shipment_event_step cfg gid gs ge msl mnl) _ _ hOK

theorem rowsOK_service_fee_step (day dt : ℤ) (oid sku asin : Option String)
    (gid : String) : ∀ st fee, RowsOK st →
    RowsOK (service_fee_step day dt oid sku asin gid st fee) := by
  intro st fee hOK
  simp only [service_fee_step]
  exact rowsOK_add_row hOK _ _ _ _ _ _ _ _ _ _ _ (by decide)

theorem rowsOK_service_event_step (cfg : Config) (gid : String)
    (gs ge : Option ℤ) (msl mnl : ℤ) : ∀ st ev, RowsOK st →
    RowsOK (service_event_step cfg gid gs ge msl mnl st ev) := by
  intro st ev hOK
  simp only [service_event_step]
  split
  · exact hOK
  · exact foldl_pres (rowsOK_service_fee_step _ _ _ _ _ gid) _ _ hOK

theorem rowsOK_extract_from_service_fee (cfg : Config) (events : Events)
    (gid : String) (gs ge : Option ℤ) (msl mnl : ℤ) : ∀ st, RowsOK st →
    RowsOK (extract_from_service_fee cfg events st gid gs ge msl mnl) := by
  intro st hOK
  exact foldl_pres (rowsOK_service_event_step cfg gid gs ge msl mnl) _ _ hOK

theorem rowsOK_refund_charge_step (day dt : ℤ) (oid sku asin : Option String)
    (gid : String) : ∀ st ch, RowsOK st →
    RowsOK (refund_charge_step day dt oid sku asin gid st ch) := by
  intro st ch hOK
  simp only [refund_charge_step]
  exact rowsOK_add_row hOK _ _ _ _ _ _ _ _ _ _ _ (by decide)

theorem rowsOK_refund_fee_step (day dt : ℤ) (oid sku asin : Option String)
    (gid : String) : ∀ st fee, RowsOK st →
    RowsOK (refund_fee_step day dt oid sku asin gid st fee) := by
  intro st fee hOK
  simp only [refund_fee_step]
  exact rowsOK_add_row hOK _ _ _ _ _ _ _ _ _ _ _ (by decide)

theorem foldl_pres_mem {α : Type} {P : St → Prop} {f : St → α → St}
    (l : List α) (h : ∀ st a, a ∈ l → P st → P (f st a)) :
    ∀ st, P st → P (l.foldl f st) := by
  induction l with
  | nil => intro st h0; exact h0
  | cons x t ih =>
    intro st h0
    exact ih (fun st' a ha h' => h st' a (List.mem_cons_of_mem _ ha) h') _
      (h st x (List.mem_cons_self _ _) h0)

theorem foldl_qty_pres {α : Type} (g : St → α → List (QtyKey × ℤ))
    (l : List α) : ∀ st, RowsOK st →
    RowsOK (l.foldl (fun st a => { st with qty_by_key_phase := g st a }) st) := by
  apply foldl_pres
  intro st a h
  exact rowsOK_qty h (g st a)

theorem rowsOK_refund_adj_step (day dt : ℤ) (oid sku asin : Option String)
    (gid : String) : ∀ st item, RowsOK st →
    RowsOK (refund_adj_step day dt oid sku asin gid st item) := by
  intro st item hOK
  simp only [refund_adj_step]
  refine foldl_pres ?_ _ _ (foldl_pres ?_ _ _ hOK)
  · intro st' fee h'
    exact rowsOK_add_row h' _ _ _ _ _ _ _ _ _ _ _ (by decide)
  · intro st' ch h'
    exact rowsOK_add_row h' _ _ _ _ _ _ _ _ _ _ _ (by decide)

theorem rowsOK_refund_event_step (cfg : Config) (gid : String)
    (gs ge : Option ℤ) (msl mnl : ℤ) : ∀ st ev, RowsOK st →
    RowsOK (refund_event_step cfg gid gs ge msl mnl st ev) := by
  intro st ev hOK
  simp only [refund_event_step]
  split
  · exact hOK
  · split
    · apply foldl_pres (rowsOK_refund_adj_step _ _ _ _ _ gid)
      apply foldl_pres (rowsOK_refund_fee_step _ _ _ _ _ gid)
      apply foldl_pres (rowsOK_refund_charge_step _ _ _ _ _ gid)
      apply foldl_qty_pres
      apply foldl_qty_pres
      exact hOK
    · apply rowsOK_scan_count ?_ _
      apply foldl_pres_mem _ ?_
      · apply foldl_pres (rowsOK_refund_adj_step _ _ _ _ _ gid)
        apply foldl_pres (rowsOK_refund_fee_step _ _ _ _ _ gid)
        apply foldl_pres (rowsOK_refund_charge_step _ _ _ _ _ gid)
        apply foldl_qty_pres
        apply foldl_qty_pres
        exact hOK
      · intro st' e he h'
        rcases scan_cat ev.raw ["RefundEvent"] e he with hc | hc <;>
          exact rowsOK_add_row h' _ _ _ _ _ _ _ _ _ _ _ (by rw [hc]; decide)

theorem rowsOK_extract_from_refund (cfg : Config) (events : Events)
    (gid : String) (gs ge : Option ℤ) (msl mnl : ℤ) : ∀ st, RowsOK st →
    RowsOK (extract_from_refund cfg events st gid gs ge msl mnl) := by
  intro st hOK
  exact foldl_pres (rowsOK_refund_event_step cfg gid gs ge msl mnl) _ _ hOK

theorem stem_charge_ne_promo (stem : String) :
    stem ++ "Charge" ≠ "Promotion" := by
  intro hh
  have hdata : stem.data ++ "Charge".data = "Promotion".data := by
    have := congrArg String.data hh
    simpa using this
  have hlen : stem.data.length + 6 = 9 := by
    have := congrArg List.length hdata
    simpa using this
  have h3 : stem.data.length = 3 := by omega
  have hdrop : "Charge".data = List.drop 3 "Promotion".data := by
    rw [← hdata, ← h3, List.drop_left]
  exact absurd hdrop (by decide)

theorem stem_fee_ne_promo (stem : String) : stem ++ "Fee" ≠ "Promotion" := by
  intro hh
  have hdata : stem.data ++ "Fee".data = "Promotion".data := by
    have := congrArg String.data hh
    simpa using this
  have hlen : stem.data.length + 3 = 9 := by
    have := congrArg List.length hdata
    simpa using this
  have h6 : stem.data.length = 6 := by omega
  have hdrop : "Fee".data = List.drop 6 "Promotion".data := by
    rw [← hdata, ← h6, List.drop_left]
  exact absurd hdrop (by decide)

theorem rowsOK_generic_charge_step (day dt : ℤ)
    (oid sku asin : Option String) (gid list_name stem : String) :
    ∀ st ch, RowsOK st →
    RowsOK (generic_charge_step day dt oid sku asin gid list_name stem st ch) := by
  intro st ch hOK
  simp only [generic_charge_step]
  exact rowsOK_add_row hOK _ _ _ _ _ _ _ _ _ _ _ (stem_charge_ne_promo stem)

theorem rowsOK_generic_fee_step (day dt : ℤ)
    (oid sku asin : Option String) (gid list_name stem : String) :
    ∀ st fee, RowsOK st →
    RowsOK (generic_fee_step day dt oid sku asin gid list_name stem st fee) := by
  intro st fee hOK
  simp only [generic_fee_step]
  exact rowsOK_add_row hOK _ _ _ _ _ _ _ _ _ _ _ (stem_fee_ne_promo stem)

theorem rowsOK_generic_event_step (cfg : Config) (gid : String)
    (gs ge : Option ℤ) (msl mnl : ℤ) (list_name stem : String)
    (phase_hint : Option String) : ∀ st ev, RowsOK st →
    RowsOK (generic_event_step cfg gid gs ge msl mnl list_name stem phase_hint st ev) := by
  intro st ev hOK
  simp only [generic_event_step]
  split
  · exact hOK
  · split
    · refine rowsOK_emit_core ?_ _ _ _ _ _ _ _ _ _ _
      apply foldl_pres (rowsOK_generic_fee_step _ _ _ _ _ gid list_name stem)
      apply foldl_pres (rowsOK_generic_charge_step _ _ _ _ _ gid list_name stem)
      split
      · exact hOK
      · apply foldl_qty_pres
        apply foldl_qty_pres
        exact hOK
    · apply foldl_pres (rowsOK_generic_fee_step _ _ _ _ _ gid list_name stem)
      apply foldl_pres (rowsOK_generic_charge_step _ _ _ _ _ gid list_name stem)
      split
      · exact hOK
      · apply foldl_qty_pres
        apply foldl_qty_pres
        exact hOK

theorem rowsOK_extract_generic (cfg : Config) (events : Events)
    (gid : String) (gs ge : Option ℤ) (list_name : String) (msl mnl : ℤ) :
    ∀ st, RowsOK st →
    RowsOK (extract_generic_fee_charge_list cfg events st gid gs ge list_name msl mnl) := by
  intro st hOK
  simp only [extract_generic_fee_charge_list]
  exact foldl_pres (rowsOK_generic_event_step cfg gid gs ge msl mnl _ _ _) _ _ hOK

theorem rowsOK_adjustment_event_step (cfg : Config) (gid : String)
    (gs ge : Option ℤ) (msl mnl : ℤ) : ∀ st ev, RowsOK st →
    RowsOK (adjustment_event_step cfg gid gs ge msl mnl st ev) := by
  intro st ev hOK
  simp only [adjustment_event_step]
  split
  · exact hOK
  · exact rowsOK_add_row hOK _ _ _ _ _ _ _ _ _ _ _ (by decide)

theorem rowsOK_extract_from_adjustments (cfg : Config) (events : Events)
    (gid : String) (gs ge : Option ℤ) (msl mnl : ℤ) : ∀ st, RowsOK st →
    RowsOK (extract_from_adjustments cfg events st gid gs ge msl mnl) := by
  intro st hOK
  exact foldl_pres (rowsOK_adjustment_event_step cfg gid gs ge msl mnl) _ _ hOK

theorem rowsOK_process_group (cfg : Config) (msl mnl : ℤ) :
    ∀ st g, RowsOK st → RowsOK (process_group cfg msl mnl st g) := by
  intro st g hOK
  simp only [process_group]
  refine foldl_pres ?_ _ _ ?_
  · intro st' name h'
    split
    · exact rowsOK_extract_from_adjustments _ _ _ _ _ _ _ _ h'
    · exact rowsOK_extract_generic _ _ _ _ _ _ _ _ _ h'
  · apply rowsOK_extract_from_refund
    apply rowsOK_extract_from_service_fee
    apply rowsOK_extract_from_shipment
    exact hOK

theorem rowsOK_run_extraction (cfg : Config) (msl mnl : ℤ)
    (groups : List EventGroup) (st : St) (h : RowsOK st) :
    RowsOK (run_extraction cfg msl mnl groups st) :=
  foldl_pres (rowsOK_process_group cfg msl mnl) groups st h

theorem rowsOK_init : RowsOK St.init := by
  refine ⟨?_, ?_, ?_⟩ <;> simp [St.init, RowsOK, List.Nodup]

theorem fl_one : fl 1 = 1 := by
  have h : (1:ℚ) = ((2 ^ 52 : ℤ) : ℚ) * (2:ℚ) ^ ((0:ℤ) - (52:ℤ)) := by
    norm_num
  rw [h]
  exact fl_of_repr (by norm_num) (by norm_num) rfl

theorem fl_two : fl 2 = 2 := by
  have h : (2:ℚ) = ((2 ^ 52 : ℤ) : ℚ) * (2:ℚ) ^ ((1:ℤ) - (52:ℤ)) := by
    norm_num
  rw [h]
  exact fl_of_repr (by norm_num) (by norm_num) rfl

theorem fl_neg_one : fl (-1) = -1 := by
  rw [show (-1 : ℚ) = -(1:ℚ) from rfl, fl_neg, fl_one]

theorem fl_neg_two : fl (-2) = -2 := by
  rw [show (-2 : ℚ) = -(2:ℚ) from rfl, fl_neg, fl_two]

/-- C3: for every line item entered into the ledger,
`amount_abs = |amount_signed|`; a null signed amount constructs no line
item and leaves the ledger and all accumulator maps unchanged — and the
invariant holds for every row the full extraction produces. -/
theorem c3_abs_amount_invariant :
    (∀ (st : St) (d p : ℤ) (cat typ cur : String)
      (oid sku asin : Option String) (gid src : String),
      add_row_and_accumulate st d p cat typ cur none oid sku asin gid src = st) ∧
    (∀ (st : St) (d p : ℤ) (cat typ cur : String) (a : ℚ)
      (oid sku asin : Option String) (gid src : String),
      ∃ row : Row,
        (add_row_and_accumulate st d p cat typ cur (some a) oid sku asin gid src).all_rows =
          st.all_rows ++ [row] ∧ row.amount_abs = |row.amount_signed|) ∧
    (∀ (cfg : Config) (msl mnl : ℤ) (groups : List EventGroup),
      ∀ r ∈ (run_extraction cfg msl mnl groups St.init).all_rows,
        r.amount_abs = |r.amount_signed|) := by
  refine ⟨fun _ _ _ _ _ _ _ _ _ _ _ => rfl, ?_, ?_⟩
  · intro st d p cat typ cur a oid sku asin gid src
    exact ⟨_, rfl, (abs_fl a).symm⟩
  · intro cfg msl mnl groups
    exact (rowsOK_run_extraction cfg msl mnl groups St.init rowsOK_init).1

/-- Witness for C3 at a concrete ledger append. -/
theorem c3_abs_amount_invariant_witness :
    ∃ row : Row,
      (add_row_and_accumulate St.init 0 0 "ServiceFee" "T" "EUR" (some (-5))
        none none none "G" "ServiceFeeEventList").all_rows =
        St.init.all_rows ++ [row] ∧ row.amount_abs = |row.amount_signed| :=
  c3_abs_amount_invariant.2.1 St.init 0 0 "ServiceFee" "T" "EUR" (-5)
    none none none "G" "ServiceFeeEventList"

/-- At most one promotion line per dedup key: every emitted promotion
row's key is registered, and no two emitted promotion rows share a key
(the first emission registers the key; later ones are suppressed). -/
def PromoDedupOK (st : St) : Prop :=
  (∀ r ∈ st.all_rows, r.category = "Promotion" →
    promoKeyOfRow r ∈ st.promo_seen) ∧
  ((st.all_rows.filter (fun r => decide (r.category = "Promotion"))).map
    promoKeyOfRow).Nodup

/-- A fixed example configuration (UTC+3, January 2025). -/
def cfgEx : Config := ⟨10800, 1700000000, 2025, 1, "DE", "default", -10800⟩

/-- A shipment promotion entry with the given amount. -/
def promoEx (amt : ℚ) : PromoEntry :=
  ⟨some "MyPromo", some "", some ⟨some amt, "EUR"⟩,
    .obj [("PromotionType", .str "MyPromo")]⟩

/-- A shipment item carrying two identical promotions and a third one
differing only in amount. -/
def shipItemEx : ShipItem :=
  ⟨some "S1", some "A1", some 1, none, [], [],
    [promoEx (-2), promoEx (-2), promoEx (-1)]⟩

def shipEvEx : ShipmentEvent := ⟨some 1000, some "O1", [shipItemEx], []⟩

def eventsEx : Events := ⟨[shipEvEx], [], [], [], fun _ => []⟩

def groupEx : EventGroup := ⟨"G1", none, none, eventsEx⟩

theorem npEx : normalize_promo (some "MyPromo") "ShipmentEventList" ""
    (.obj [("PromotionType", .str "MyPromo")]) (some "") = "MyPromo" := by
  decide

set_option maxHeartbeats 1000000 in
/-- C5: within one run, among all promotion lines sharing an identical
dedup key (order, sku-or-order-level, asin, bucket, amount, currency,
posted timestamp, event group), only the first is emitted and every
later one is suppressed, regardless of which extractor produced it; a
promotion line differing from an already-seen key only in amount is
emitted separately.  Concretely: two identical promotions plus a third
differing only in amount yield two emitted lines and one suppression. -/
theorem c5_promo_dedup_once :
    (∀ (cfg : Config) (msl mnl : ℤ) (groups : List EventGroup),
      PromoDedupOK (run_extraction cfg msl mnl groups St.init)) ∧
    ((run_extraction cfgEx 0 2678400 [groupEx] St.init).all_rows.filter
      (fun r => decide (r.category = "Promotion"))).length = 2 ∧
    (run_extraction cfgEx 0 2678400 [groupEx] St.init).promo_dup_skipped = 1 := by
  refine ⟨?_, ?_⟩
  · intro cfg msl mnl groups
    have h := rowsOK_run_extraction cfg msl mnl groups St.init rowsOK_init
    exact ⟨h.2.1, h.2.2⟩
  · constructor <;>
    norm_num +decide [run_extraction, process_group, RUN_EVENT_LISTS,
      extract_from_shipment, extract_from_service_fee, extract_from_refund,
      extract_from_adjustments, extract_generic_fee_charge_list,
      shipment_event_step, ship_item_step, ship_promo_step, ship_fee_step,
      ship_charge_step, ship_adj_step, groupEx, eventsEx, shipEvEx,
      shipItemEx, promoEx, cfgEx, St.init, event_date_local_iso, event_dt,
      inMonth, dateOf, money_amount, sum_item_shipping_components,
      qty_bump, pyOpt, pyStrD, pyIntOr, npEx, add_row_and_accumulate,
      fl_neg_one, fl_neg_two, show ((11800:ℤ).ediv 86400) = 0 from by decide,
      show ((0:ℤ).ediv 86400) = 0 from by decide,
      show ((2678400:ℤ).ediv 86400) = 31 from by decide]

theorem inMonth_iff (msl mnl l : ℤ) (hs : msl % 86400 = 0)
    (hn : mnl % 86400 = 0) :
    inMonth msl mnl (dateOf l) = true ↔ (msl ≤ l ∧ l < mnl) := by
  have h1 : dateOf l = l / 86400 := rfl
  have h2 : dateOf msl = msl / 86400 := rfl
  have h3 : dateOf mnl = mnl / 86400 := rfl
  simp only [inMonth, Bool.and_eq_true, decide_eq_true_eq, h1, h2, h3]
  omega

theorem inMonth_false_of_out (msl mnl l : ℤ) (hs : msl % 86400 = 0)
    (hn : mnl % 86400 = 0) (hout : l < msl ∨ mnl ≤ l) :
    inMonth msl mnl (dateOf l) = false := by
  rcases Bool.eq_false_or_eq_true (inMonth msl mnl (dateOf l)) with h | h
  · rcases (inMonth_iff msl mnl l hs hn).mp h with ⟨ha, hb⟩
    rcases hout with hc | hc <;> omega
  · exact h

/-- A shipment item with one item fee (for the boundary examples). -/
def feeItemEx : ShipItem :=
  ⟨some "S1", some "A1", some 1, none,
    [⟨some "FBAPerUnitFulfillmentFee", some ⟨some (-3), "EUR"⟩⟩], [], []⟩

/-- A one-fee shipment event posted at the given UTC timestamp. -/
def shipEvAt (t : ℤ) : ShipmentEvent := ⟨some t, some "O1", [feeItemEx], []⟩

/-- C4: for every extractor and every raw event, the event contributes no
line items (the run state is unchanged) when its resolved timestamp,
converted to the local timezone, lies outside
`[month_start_local, month_next_local)`; at the concrete window
`[0, 2678400)` (UTC+3), an event one second before the local month start
is excluded, an event exactly at month start is included (its fee line
is emitted), and events at, or one second after, the month-next boundary
are excluded. -/
theorem c4_month_window_filter (cfg : Config) (gid : String)
    (gs ge : Option ℤ) (msl mnl : ℤ) (st : St)
    (hs : msl % 86400 = 0) (hn : mnl % 86400 = 0) :
    (∀ ev : ShipmentEvent,
      (event_dt ev.posted gs ge cfg.nowUtc + cfg.tzOff < msl ∨
        mnl ≤ event_dt ev.posted gs ge cfg.nowUtc + cfg.tzOff) →
      shipment_event_step cfg gid gs ge msl mnl st ev = st) ∧
    (∀ ev : ServiceFeeEvent,
      (event_dt ev.posted gs ge cfg.nowUtc + cfg.tzOff < msl ∨
        mnl ≤ event_dt ev.posted gs ge cfg.nowUtc + cfg.tzOff) →
      service_event_step cfg gid gs ge msl mnl st ev = st) ∧
    (∀ ev : RefundEvent,
      (event_dt ev.posted gs ge cfg.nowUtc + cfg.tzOff < msl ∨
        mnl ≤ event_dt ev.posted gs ge cfg.nowUtc + cfg.tzOff) →
      refund_event_step cfg gid gs ge msl mnl st ev = st) ∧
    (∀ ev : AdjustmentEvent,
      (event_dt ev.posted gs ge cfg.nowUtc + cfg.tzOff < msl ∨
        mnl ≤ event_dt ev.posted gs ge cfg.nowUtc + cfg.tzOff) →
      adjustment_event_step cfg gid gs ge msl mnl st ev = st) ∧
    (∀ (ev : GenericEvent) (list_name stem : String) (ph : Option String),
      (event_dt ev.posted gs ge cfg.nowUtc + cfg.tzOff < msl ∨
        mnl ≤ event_dt ev.posted gs ge cfg.nowUtc + cfg.tzOff) →
      generic_event_step cfg gid gs ge msl mnl list_name stem ph st ev = st) ∧
    (shipment_event_step cfgEx "G1" none none 0 2678400 St.init
      (shipEvAt (-10800))).all_rows.length = 1 ∧
    shipment_event_step cfgEx "G1" none none 0 2678400 St.init
      (shipEvAt (-10801)) = St.init ∧
    shipment_event_step cfgEx "G1" none none 0 2678400 St.init
      (shipEvAt 2667600) = St.init ∧
    shipment_event_step cfgEx "G1" none none 0 2678400 St.init
      (shipEvAt 2667601) = St.init := by
  refine ⟨?_, ?_, ?_, ?_, ?_, ?_, ?_, ?_, ?_⟩
  · intro ev hout
    have hf := inMonth_false_of_out msl mnl _ hs hn hout
    simp only [shipment_event_step, event_date_local_iso, hf]
    rfl
  · intro ev hout
    have hf := inMonth_false_of_out msl mnl _ hs hn hout
    simp only [service_event_step, event_date_local_iso, hf]
    rfl
  · intro ev hout
    have hf := inMonth_false_of_out msl mnl _ hs hn hout
    simp only [refund_event_step, event_date_local_iso, hf]
    rfl
  · intro ev hout
    have hf := inMonth_false_of_out msl mnl _ hs hn hout
    simp only [adjustment_event_step, event_date_local_iso, hf]
    rfl
  · intro ev list_name stem ph hout
    have hf := inMonth_false_of_out msl mnl _ hs hn hout
    simp only [generic_event_step, event_date_local_iso, hf]
    rfl
  · decide
  · decide
  · decide
  · decide

/-- Witness for C4: the one-second-before-month-start event is dropped. -/
theorem c4_month_window_filter_witness :
    shipment_event_step cfgEx "G1" none none 0 2678400 St.init
      (shipEvAt (-10801)) = St.init :=
  (c4_month_window_filter cfgEx "G1" none none 0 2678400 St.init
    (by decide) (by decide)).1 (shipEvAt (-10801)) (by decide)

/-- The scan-sourced-row predicate and scan-counter preservation through
one ledger append with a non-scan source. -/
theorem add_row_scan_pres (st : St) (d p : ℤ) (cat typ cur : String)
    (a : Option ℚ) (oid sku asin : Option String) (gid src : String)
    (h : src ≠ "RefundEventList/Scan") :
    (add_row_and_accumulate st d p cat typ cur a oid sku asin gid src).all_rows.filter
        (fun r => decide (r.source_list = "RefundEventList/Scan")) =
      st.all_rows.filter
        (fun r => decide (r.source_list = "RefundEventList/Scan")) ∧
    (add_row_and_accumulate st d p cat typ cur a oid sku asin gid src).refund_scan_used =
      st.refund_scan_used := by
  cases a with
  | none => exact ⟨rfl, rfl⟩
  | some a =>
    constructor
    · simp only [add_row_and_accumulate, List.filter_append]
      have : List.filter (fun r => decide (r.source_list = "RefundEventList/Scan"))
          [({ date_local := d, category := cat, typ := typ, cur := cur,
              amount_signed := fl a, amount_abs := fl |a|,
              order_id := oid.getD "", sku := sku.getD "",
              asin := asin.getD "", group_id := gid, source_list := src,
              posted_at := p } : Row)] = [] := by
        simp [List.filter, h]
      rw [this, List.append_nil]
    · rfl

/-- C10: whenever a refund event carries any explicit refund-charge
list, refund-fee list, or shipment-item-adjustment entry with charge- or
fee-adjustment data, the recursive structural scan is not applied: no
scan-sourced line is emitted for that event and the scan-use counter is
unchanged. -/
theorem c10_refund_scan_guard (cfg : Config) (gid : String)
    (gs ge : Option ℤ) (msl mnl : ℤ) (st : St) (ev : RefundEvent)
    (hexp : refund_has_explicit ev = true) :
    (refund_event_step cfg gid gs ge msl mnl st ev).all_rows.filter
        (fun r => decide (r.source_list = "RefundEventList/Scan")) =
      st.all_rows.filter
        (fun r => decide (r.source_list = "RefundEventList/Scan")) ∧
    (refund_event_step cfg gid gs ge msl mnl st ev).refund_scan_used =
      st.refund_scan_used := by
  simp only [refund_event_step, hexp, eq_self_iff_true, if_true]
  split
  · exact ⟨rfl, rfl⟩
  · set Q : St → Prop := fun st' =>
      st'.all_rows.filter (fun r => decide (r.source_list = "RefundEventList/Scan")) =
        st.all_rows.filter (fun r => decide (r.source_list = "RefundEventList/Scan")) ∧
      st'.refund_scan_used = st.refund_scan_used with hQ
    show Q _
    apply foldl_pres (P := Q) ?_
    · apply foldl_pres (P := Q) ?_
      · apply foldl_pres (P := Q) ?_
        · refine foldl_pres (P := Q) ?_ _ _ ?_
          · intro st' it hq
            exact hq
          · refine foldl_pres (P := Q) ?_ _ _ ?_
            · intro st' it hq
              exact hq
            · exact ⟨rfl, rfl⟩
        · intro st' ch hq
          have h := add_row_scan_pres st' (event_date_local_iso cfg ev.posted gs ge).1
            (event_date_local_iso cfg ev.posted gs ge).2 "RefundCharge"
            (pyStrD ch.chargeType "") (money_amount ch.chargeAmount).2
            (money_amount ch.chargeAmount).1 ev.orderId ev.sellerSKU ev.asin
            gid "RefundEventList" (by decide)
          exact ⟨h.1.trans hq.1, h.2.trans hq.2⟩
      · intro st' fee hq
        have h := add_row_scan_pres st' (event_date_local_iso cfg ev.posted gs ge).1
            (event_date_local_iso cfg ev.posted gs ge).2 "RefundFee"
          (pyStrD fee.feeType "") (money_amount fee.feeAmount).2
          (money_amount fee.feeAmount).1 ev.orderId ev.sellerSKU ev.asin
          gid "RefundEventList" (by decide)
        exact ⟨h.1.trans hq.1, h.2.trans hq.2⟩
    · intro st' item hq
      simp only [refund_adj_step]
      apply foldl_pres (P := Q) ?_
      · apply foldl_pres (P := Q) ?_ _ _ hq
        intro st'' ch hq'
        have h := add_row_scan_pres st'' (event_date_local_iso cfg ev.posted gs ge).1
            (event_date_local_iso cfg ev.posted gs ge).2 "RefundChargeAdjustment"
          (pyStrD ch.chargeType "") (money_amount ch.chargeAmount).2
          (money_amount ch.chargeAmount).1 ev.orderId
          (pyOr item.sellerSKU ev.sellerSKU) (pyOr item.asin ev.asin)
          gid "RefundEventList" (by decide)
        exact ⟨h.1.trans hq'.1, h.2.trans hq'.2⟩
      · intro st'' fee hq'
        have h := add_row_scan_pres st'' (event_date_local_iso cfg ev.posted gs ge).1
            (event_date_local_iso cfg ev.posted gs ge).2 "RefundFeeAdjustment"
          (pyStrD fee.feeType "") (money_amount fee.feeAmount).2
          (money_amount fee.feeAmount).1 ev.orderId
          (pyOr item.sellerSKU ev.sellerSKU) (pyOr item.asin ev.asin)
          gid "RefundEventList" (by decide)
        exact ⟨h.1.trans hq'.1, h.2.trans hq'.2⟩

/-- A refund event with an explicit charge list and a scannable nested
fee amount in its raw document. -/
def refundEvEx : RefundEvent :=
  ⟨some 1000, some "O1", some "S1", some "A1", [], [],
    [⟨some "Tax", some ⟨some (-1), "EUR"⟩⟩], [],
    .obj [("FeeAmount",
      .obj [("CurrencyCode", .str "EUR"), ("Amount", .num (-9))])]⟩

/-- Witness for C10 at a concrete refund event carrying both explicit
structured data and scannable raw content. -/
theorem c10_refund_scan_guard_witness :
    (refund_event_step cfgEx "G1" none none 0 2678400 St.init refundEvEx).all_rows.filter
        (fun r => decide (r.source_list = "RefundEventList/Scan")) =
      St.init.all_rows.filter
        (fun r => decide (r.source_list = "RefundEventList/Scan")) ∧
    (refund_event_step cfgEx "G1" none none 0 2678400 St.init refundEvEx).refund_scan_used =
      St.init.refund_scan_used :=
  c10_refund_scan_guard cfgEx "G1" none none 0 2678400 St.init refundEvEx
    (by decide)

/-- The account bucket a ledger row belongs to. -/
def acctKeyOf (cfg : Config) (r : Row) : AcctKey :=
  ⟨r.date_local, r.category, r.typ, r.cur, r.group_id, cfg.year, cfg.month⟩

/-- The agg component of one account-aggregation step. -/
theorem account_fees_step_agg (cfg : Config)
    (acc : List (AcctKey × ℚ) × List (AcctKey × String)) (r : Row) :
    (account_fees_step cfg acc r).1 =
      if r.order_id = "" then
        dset acc.1 (acctKeyOf cfg r)
          (fl (((dget acc.1 (acctKeyOf cfg r)).getD 0) + fl r.amount_abs))
      else acc.1 := by
  by_cases ho : r.order_id = "" <;> simp [account_fees_step, ho, acctKeyOf]

/-- C7: a line item with no order id never contributes to any order/SKU
aggregate row — it only touches the order-less identity key, and the row
builder emits nothing for such keys — and it is summed (by absolute
value, in binary64) into exactly its (date, category, type, currency,
event-group) account bucket, while a line with an order id leaves the
account aggregate unchanged. -/
theorem c7_account_routing (cfg : Config) :
    (∀ (st : St) (d p : ℤ) (cat typ cur : String) (a : Option ℚ)
      (oid sku asin : Option String) (gid src : String) (k : AggKey),
      pyOpt oid = none → k.1 ≠ none →
      dget (add_row_and_accumulate st d p cat typ cur a oid sku asin gid src).signed_by_cat_key_all k =
        dget st.signed_by_cat_key_all k) ∧
    (∀ (lastM : List (LastKey × ℤ)) (qtyM : List (QtyKey × ℤ))
      (sku asin cur : String) (cmap : List (String × ℚ)),
      rows_for_key cfg lastM qtyM (none, sku, asin, cur) cmap = ([], 1)) ∧
    (∀ (rows : List Row) (r : Row) (k : AcctKey),
      dget (account_fees_agg cfg (rows ++ [r])).1 k =
        if r.order_id = "" ∧ k = acctKeyOf cfg r
        then some (fl (((dget (account_fees_agg cfg rows).1 k).getD 0) + fl r.amount_abs))
        else dget (account_fees_agg cfg rows).1 k) := by
  refine ⟨?_, ?_, ?_⟩
  · intro st d p cat typ cur a oid sku asin gid src k hoid hk
    cases a with
    | none => rfl
    | some a =>
      simp only [add_row_and_accumulate, bumpMap]
      apply dget_dset_ne
      intro hkey
      apply hk
      rw [hkey, hoid]
  · intro lastM qtyM sku asin cur cmap
    rfl
  · intro rows r k
    have h : account_fees_agg cfg (rows ++ [r]) =
        account_fees_step cfg (account_fees_agg cfg rows) r := by
      simp [account_fees_agg, List.foldl_append]
    rw [h, account_fees_step_agg]
    by_cases ho : r.order_id = ""
    · rw [if_pos ho]
      by_cases hkk : k = acctKeyOf cfg r
      · rw [if_pos ⟨ho, hkk⟩, hkk]
        exact dget_dset_self _ _ _
      · rw [if_neg (fun hc => hkk hc.2)]
        exact dget_dset_ne _ _ _ _ hkk
    · rw [if_neg ho, if_neg (fun hc => ho hc.1)]

/-- Witness for C7: an order-less append leaves an order-keyed identity
bucket untouched. -/
theorem c7_account_routing_witness :
    dget (add_row_and_accumulate St.init 0 0 "ServiceFee" "T" "EUR"
        (some (-5)) (some "") none none "G" "S").signed_by_cat_key_all
      (some "O9", "_ORDER_LEVEL_", "", "EUR") =
    dget St.init.signed_by_cat_key_all (some "O9", "_ORDER_LEVEL_", "", "EUR") :=
  (c7_account_routing cfgEx).1 St.init 0 0 "ServiceFee" "T" "EUR"
    (some (-5)) (some "") none none "G" "S"
    (some "O9", "_ORDER_LEVEL_", "", "EUR") (by decide) (by decide)

theorem roundHE_tenth : roundHalfEven ((36028797018963968:ℚ)/5) = 7205759403792794 := by
  have hf : ⌊(36028797018963968:ℚ)/5⌋ = 7205759403792793 := by norm_num
  unfold roundHalfEven
  rw [hf]
  norm_num

/-- `float(Decimal("0.1"))` is not one tenth. -/
theorem fl_tenth : fl ((1:ℚ)/10) = 3602879701896397 / 36028797018963968 := by
  have hpos : (0:ℚ) < 1/10 := by norm_num
  have hlog : Int.log 2 ((1:ℚ)/10) = -4 :=
    int_log2_eq hpos (by norm_num) (by norm_num)
  unfold fl flPos
  rw [if_neg (by norm_num), if_neg (by norm_num), hlog]
  rw [show ((1:ℚ)/10) * (2:ℚ) ^ ((52:ℤ) - (-4)) = (36028797018963968:ℚ)/5 by norm_num]
  rw [roundHE_tenth]
  norm_num

theorem roundHE_tie : roundHalfEven ((10808639105689191:ℚ)/2) = 5404319552844596 := by
  have hf : ⌊(10808639105689191:ℚ)/2⌋ = 5404319552844595 := by norm_num
  unfold roundHalfEven
  rw [hf]
  norm_num

/-- Rounding `3 · float(0.1)` back to binary64 lands above the exact
value (a tie resolved to the even mantissa). -/
theorem fl_three_tenths_fl : fl ((10808639105689191:ℚ)/36028797018963968) =
    5404319552844596 / 18014398509481984 := by
  have hpos : (0:ℚ) < 10808639105689191/36028797018963968 := by norm_num
  have hlog : Int.log 2 ((10808639105689191:ℚ)/36028797018963968) = -2 :=
    int_log2_eq hpos (by norm_num) (by norm_num)
  unfold fl flPos
  rw [if_neg (by norm_num), if_neg (by norm_num), hlog]
  rw [show ((10808639105689191:ℚ)/36028797018963968) * (2:ℚ) ^ ((52:ℤ) - (-2)) =
    (10808639105689191:ℚ)/2 by norm_num]
  rw [roundHE_tie]
  norm_num

theorem fl_fix_a : fl ((3602879701896397:ℚ) / 36028797018963968) =
    3602879701896397 / 36028797018963968 := by
  have h : ((3602879701896397:ℚ) / 36028797018963968) =
      ((7205759403792794 : ℤ) : ℚ) * (2:ℚ) ^ ((-4:ℤ) - 52) := by norm_num
  rw [h]
  exact fl_of_repr (by norm_num) (by norm_num) rfl

theorem fl_fix_2a : fl ((3602879701896397:ℚ) / 18014398509481984) =
    3602879701896397 / 18014398509481984 := by
  have h : ((3602879701896397:ℚ) / 18014398509481984) =
      ((7205759403792794 : ℤ) : ℚ) * (2:ℚ) ^ ((-3:ℤ) - 52) := by norm_num
  rw [h]
  exact fl_of_repr (by norm_num) (by norm_num) rfl

/-- Three order-less ledger lines of signed amount `-0.1` in one bucket
(entered through `add_row_and_accumulate`). -/
def stC2 : St :=
  add_row_and_accumulate
    (add_row_and_accumulate
      (add_row_and_accumulate St.init 0 0 "ServiceFee" "T" "EUR"
        (some (-(1/10))) none none none "G1" "ServiceFeeEventList")
      0 0 "ServiceFee" "T" "EUR" (some (-(1/10))) none none none "G1"
      "ServiceFeeEventList")
    0 0 "ServiceFee" "T" "EUR" (some (-(1/10))) none none none "G1"
    "ServiceFeeEventList"

/-- The account bucket of those lines. -/
def k0 : AcctKey := ⟨0, "ServiceFee", "T", "EUR", "G1", 2025, 1⟩

set_option maxHeartbeats 1000000 in
/-- Counterexample to C2 as stated: with three `-0.1` lines in one
bucket, the account bucket value (a binary64 left-fold) differs from the
exact sum of the absolute signed amounts — the float aggregation
introduces a rounding error of one ulp. -/
theorem c2_counterexample :
    (dget (account_fees_agg cfgEx stC2.all_rows).1 k0).getD 0 ≠
      ((stC2.all_rows.filter (fun r =>
        decide (r.order_id = "" ∧ acctKeyOf cfgEx r = k0))).map
        (fun r => |r.amount_signed|)).sum := by
  have h1 : fl (-(1/10) : ℚ) = -(3602879701896397 / 36028797018963968 : ℚ) := by
    rw [show (-(1/10) : ℚ) = -((1:ℚ)/10) from by norm_num, fl_neg, fl_tenth]
  have h2 : |(-(1/10) : ℚ)| = (1:ℚ)/10 := by norm_num
  have h3 : |(3602879701896397:ℚ) / 36028797018963968| =
      (3602879701896397:ℚ) / 36028797018963968 := abs_of_pos (by norm_num)
  norm_num +decide [h3, stC2, add_row_and_accumulate, St.init,
    account_fees_agg, account_fees_step, acctKeyOf, k0, cfgEx, dget, dset,
    h1, h2, fl_tenth, fl_fix_a, fl_fix_2a, fl_three_tenths_fl, fl_neg]

/-- The generalized bucket characterization: starting from any
accumulator, the bucket value is the binary64 left-fold over exactly the
matching order-less rows. -/
theorem acct_fold_getD (cfg : Config) (rows : List Row) :
    ∀ (acc : List (AcctKey × ℚ) × List (AcctKey × String)) (k : AcctKey),
    (dget (rows.foldl (account_fees_step cfg) acc).1 k).getD 0 =
      (rows.filter (fun r =>
        decide (r.order_id = "" ∧ acctKeyOf cfg r = k))).foldl
        (fun acc' r => fl (acc' + fl r.amount_abs)) ((dget acc.1 k).getD 0) := by
  induction rows with
  | nil => intro acc k; rfl
  | cons r t ih =>
    intro acc k
    rw [List.foldl_cons]
    by_cases hP : r.order_id = "" ∧ acctKeyOf cfg r = k
    · have hb : (dget (account_fees_step cfg acc r).1 k).getD 0 =
          fl (((dget acc.1 k).getD 0) + fl r.amount_abs) := by
        rw [account_fees_step_agg, if_pos hP.1, ← hP.2, dget_dset_self]
        rfl
      rw [ih _ _, hb, List.filter_cons_of_pos (by simpa using hP),
        List.foldl_cons]
    · have hb : (dget (account_fees_step cfg acc r).1 k).getD 0 =
          (dget acc.1 k).getD 0 := by
        rw [account_fees_step_agg]
        by_cases ho : r.order_id = ""
        · have hk : acctKeyOf cfg r ≠ k := fun hc => hP ⟨ho, hc⟩
          rw [if_pos ho, dget_dset_ne _ _ _ _ (Ne.symm hk)]
        · rw [if_neg ho]
      rw [ih _ _, hb, List.filter_cons_of_neg (by simpa using hP)]

/-- C2 (amended): each account bucket holds the IEEE-754 binary64
left-fold accumulation of the float conversions of the absolute amounts
of exactly the ledger lines lacking an order id that fall into that
bucket (rounding once per addition). -/
theorem c2_amended_float_fold (cfg : Config) (rows : List Row) (k : AcctKey) :
    (dget (account_fees_agg cfg rows).1 k).getD 0 =
      (rows.filter (fun r =>
        decide (r.order_id = "" ∧ acctKeyOf cfg r = k))).foldl
        (fun acc' r => fl (acc' + fl r.amount_abs)) 0 :=
  acct_fold_getD cfg rows ([], []) k

/-! ### C6: the Payment/Refund phase split -/

theorem dset_append_of_not_mem {α β : Type} [DecidableEq α]
    (m : List (α × β)) (k : α) (v : β) (h : k ∉ m.map Prod.fst) :
    dset m k v = m ++ [(k, v)] := by
  induction m with
  | nil => rfl
  | cons p t ih =>
    obtain ⟨k', v'⟩ := p
    simp only [List.map_cons, List.mem_cons, not_or] at h
    rw [dset, if_neg (Ne.symm h.1), ih h.2]
    rfl

/-- The spec's Refund sub-map, stated as a filter: the entries whose
category prefix starts with Refund, GuaranteeClaim or Chargeback. -/
def ref_filter (m : List (String × ℚ)) : List (String × ℚ) :=
  m.filter (fun kv => is_refund_category (catPrefix kv.1))

/-- The spec's Payment sub-map, stated as a filter: all other entries. -/
def pay_filter (m : List (String × ℚ)) : List (String × ℚ) :=
  m.filter (fun kv => !is_refund_category (catPrefix kv.1))

theorem split_phase_fold (l : List (String × ℚ)) :
    ∀ (a b : List (String × ℚ)),
    (l.map Prod.fst).Nodup →
    (∀ kv ∈ l, kv.1 ∉ a.map Prod.fst) →
    (∀ kv ∈ l, kv.1 ∉ b.map Prod.fst) →
    l.foldl split_phase_step (a, b) = (a ++ pay_filter l, b ++ ref_filter l) := by
  induction l with
  | nil => intro a b _ _ _; simp [pay_filter, ref_filter]
  | cons kv t ih =>
    intro a b hnd ha hb
    simp only [List.map_cons, List.nodup_cons] at hnd
    have hfresh : kv.1 ∉ t.map Prod.fst := hnd.1
    have ha' : ∀ kv' ∈ t, kv'.1 ∉ a.map Prod.fst :=
      fun kv' h' => ha kv' (List.mem_cons_of_mem _ h')
    have hb' : ∀ kv' ∈ t, kv'.1 ∉ b.map Prod.fst :=
      fun kv' h' => hb kv' (List.mem_cons_of_mem _ h')
    have hext : ∀ (c : List (String × ℚ)), (∀ kv' ∈ t, kv'.1 ∉ c.map Prod.fst) →
        ∀ kv' ∈ t, kv'.1 ∉ (c ++ [(kv.1, kv.2)]).map Prod.fst := by
      intro c hc kv' h'
      rw [List.map_append, List.mem_append]
      rintro (hm | hm)
      · exact hc kv' h' hm
      · have he : kv'.1 = kv.1 := by simpa using hm
        exact hfresh (he ▸ List.mem_map_of_mem Prod.fst h')
    rw [List.foldl_cons]
    by_cases hrc : is_refund_category (catPrefix kv.1) = true
    · have hstep : split_phase_step (a, b) kv = (a, b ++ [(kv.1, kv.2)]) := by
        rw [split_phase_step, if_pos hrc,
          dset_append_of_not_mem _ _ _ (hb kv (List.mem_cons_self _ _))]
      have hp : pay_filter (kv :: t) = pay_filter t := by
        simp [pay_filter, List.filter_cons, hrc]
      have hr : ref_filter (kv :: t) = kv :: ref_filter t := by
        simp [ref_filter, List.filter_cons, hrc]
      rw [hstep, ih a _ hnd.2 ha' (hext b hb'), hp, hr, List.append_assoc]
      rfl
    · rw [Bool.not_eq_true] at hrc
      have hstep : split_phase_step (a, b) kv = (a ++ [(kv.1, kv.2)], b) := by
        rw [split_phase_step, if_neg (by simp [hrc]),
          dset_append_of_not_mem _ _ _ (ha kv (List.mem_cons_self _ _))]
      have hp : pay_filter (kv :: t) = kv :: pay_filter t := by
        simp [pay_filter, List.filter_cons, hrc]
      have hr : ref_filter (kv :: t) = ref_filter t := by
        simp [ref_filter, List.filter_cons, hrc]
      rw [hstep, ih _ b hnd.2 (hext a ha') hb', hp, hr, List.append_assoc]
      rfl

/-- When the signed category map has no repeated keys (a Python dict
never does), the fold realizes exactly the two filters. -/
theorem split_phase_maps_filter (m : List (String × ℚ))
    (hnd : (m.map Prod.fst).Nodup) :
    split_phase_maps m = (pay_filter m, ref_filter m) := by
  have h := split_phase_fold m [] [] hnd (by simp) (by simp)
  simpa [split_phase_maps] using h

set_option maxHeartbeats 800000 in
/-- Counterexample to C6 as stated: with the single Payment entry
`ShipmentItemFee:F ↦ 0.1`, the emitted row's `fee_total` is the
binary64 `float(0.1)`, not the exact sum `0.1` of the sub-map's
absolute values. -/
theorem c6_counterexample :
    ((rows_for_key cfgEx [] [] (some "O1", "S1", "A1", "EUR")
        [("ShipmentItemFee:F", (1:ℚ)/10)]).1.map (fun r => r.fee_total)) ≠
      [(1:ℚ)/10] := by
  have hc : is_refund_category (catPrefix "ShipmentItemFee:F") = false := by
    decide
  have habs : |(1:ℚ)/10| = (1:ℚ)/10 := abs_of_pos (by norm_num)
  norm_num +decide [rows_for_key, split_phase_maps, split_phase_step, hc,
    dset, mk_fee_row, cfgEx, habs, fl_tenth]

/-- C6 (amended): for an identity key with a non-null order id, the
signed category:type map is split by category prefix into the Refund
filter (categories starting with Refund, GuaranteeClaim or Chargeback)
and the Payment filter (all others); for each non-empty sub-map exactly
one row is emitted, whose `fee_total` is the binary64 float of the sum
of the absolute values of that sub-map's entries only, and whose
breakdown is that signed sub-map with each entry converted to binary64
(not the exact signed map verbatim); `RefundFee` routes to Refund and
`ShipmentItemFee` to Payment. -/
theorem c6_amended_phase_split (cfg : Config) (lastM : List (LastKey × ℤ))
    (qtyM : List (QtyKey × ℤ)) (oid sku_v asin_v cur : String)
    (m : List (String × ℚ)) (hoid : oid ≠ "")
    (hnd : (m.map Prod.fst).Nodup) :
    (rows_for_key cfg lastM qtyM (some oid, sku_v, asin_v, cur) m).1 =
      ((if (pay_filter m).isEmpty then [] else
          [mk_fee_row cfg lastM qtyM oid sku_v asin_v cur "Payment"
            (pay_filter m)]) ++
        (if (ref_filter m).isEmpty then [] else
          [mk_fee_row cfg lastM qtyM oid sku_v asin_v cur "Refund"
            (ref_filter m)])) ∧
    (∀ r ∈ (rows_for_key cfg lastM qtyM (some oid, sku_v, asin_v, cur) m).1,
        r.transaction_phase = "Payment" →
          r.fee_total = fl (((pay_filter m).map (fun kv => |kv.2|)).sum) ∧
          r.fee_breakdown = (pay_filter m).map (fun kv => (kv.1, fl kv.2))) ∧
    (∀ r ∈ (rows_for_key cfg lastM qtyM (some oid, sku_v, asin_v, cur) m).1,
        r.transaction_phase = "Refund" →
          r.fee_total = fl (((ref_filter m).map (fun kv => |kv.2|)).sum) ∧
          r.fee_breakdown = (ref_filter m).map (fun kv => (kv.1, fl kv.2))) ∧
    is_refund_category (catPrefix "RefundFee:X") = true ∧
    is_refund_category (catPrefix "ShipmentItemFee:X") = false := by
  have hsp := split_phase_maps_filter m hnd
  have h1 : (rows_for_key cfg lastM qtyM (some oid, sku_v, asin_v, cur) m).1 =
      ((if (pay_filter m).isEmpty then [] else
          [mk_fee_row cfg lastM qtyM oid sku_v asin_v cur "Payment"
            (pay_filter m)]) ++
        (if (ref_filter m).isEmpty then [] else
          [mk_fee_row cfg lastM qtyM oid sku_v asin_v cur "Refund"
            (ref_filter m)])) := by
    simp [rows_for_key, hoid, hsp]
  refine ⟨h1, ?_, ?_, by decide, by decide⟩
  · intro r hr hph
    rw [h1] at hr
    rcases List.mem_append.mp hr with hm | hm
    · by_cases hp : (pay_filter m).isEmpty
      · rw [if_pos hp] at hm
        exact absurd hm (List.not_mem_nil r)
      · rw [if_neg hp] at hm
        have he : r = mk_fee_row cfg lastM qtyM oid sku_v asin_v cur
            "Payment" (pay_filter m) := by simpa using hm
        subst he
        exact ⟨rfl, rfl⟩
    · by_cases hp : (ref_filter m).isEmpty
      · rw [if_pos hp] at hm
        exact absurd hm (List.not_mem_nil r)
      · rw [if_neg hp] at hm
        have he : r = mk_fee_row cfg lastM qtyM oid sku_v asin_v cur
            "Refund" (ref_filter m) := by simpa using hm
        rw [he] at hph
        simp only [mk_fee_row] at hph
        exact absurd hph (by decide)
  · intro r hr hph
    rw [h1] at hr
    rcases List.mem_append.mp hr with hm | hm
    · by_cases hp : (pay_filter m).isEmpty
      · rw [if_pos hp] at hm
        exact absurd hm (List.not_mem_nil r)
      · rw [if_neg hp] at hm
        have he : r = mk_fee_row cfg lastM qtyM oid sku_v asin_v cur
            "Payment" (pay_filter m) := by simpa using hm
        rw [he] at hph
        simp only [mk_fee_row] at hph
        exact absurd hph (by decide)
    · by_cases hp : (ref_filter m).isEmpty
      · rw [if_pos hp] at hm
        exact absurd hm (List.not_mem_nil r)
      · rw [if_neg hp] at hm
        have he : r = mk_fee_row cfg lastM qtyM oid sku_v asin_v cur
            "Refund" (ref_filter m) := by simpa using hm
        subst he
        exact ⟨rfl, rfl⟩

/-- C6 amended theorem instantiated at a concrete two-entry map with one
Payment and one Refund category. -/
theorem c6_amended_phase_split_witness :
    ("O1" : String) ≠ "" ∧
    (([("ShipmentItemFee:F", (1:ℚ)/10), ("RefundFee:G", -(1:ℚ)/5)]).map
        Prod.fst).Nodup ∧
    (rows_for_key cfgEx [] [] (some "O1", "S1", "A1", "EUR")
        [("ShipmentItemFee:F", (1:ℚ)/10), ("RefundFee:G", -(1:ℚ)/5)]).1 =
      ((if (pay_filter [("ShipmentItemFee:F", (1:ℚ)/10),
            ("RefundFee:G", -(1:ℚ)/5)]).isEmpty then [] else
          [mk_fee_row cfgEx [] [] "O1" "S1" "A1" "EUR" "Payment"
            (pay_filter [("ShipmentItemFee:F", (1:ℚ)/10),
              ("RefundFee:G", -(1:ℚ)/5)])]) ++
        (if (ref_filter [("ShipmentItemFee:F", (1:ℚ)/10),
            ("RefundFee:G", -(1:ℚ)/5)]).isEmpty then [] else
          [mk_fee_row cfgEx [] [] "O1" "S1" "A1" "EUR" "Refund"
            (ref_filter [("ShipmentItemFee:F", (1:ℚ)/10),
              ("RefundFee:G", -(1:ℚ)/5)])])) :=
  ⟨by decide, by decide,
    (c6_amended_phase_split cfgEx [] [] "O1" "S1" "A1" "EUR"
      [("ShipmentItemFee:F", (1:ℚ)/10), ("RefundFee:G", -(1:ℚ)/5)]
      (by decide) (by decide)).1⟩
set_option maxHeartbeats 800000 in
/-- C8: the promotion classifier applies source-list rules first: any
input arriving via the coupon-payment list is `Coupon` regardless of
its text; via the shipment list, when the promotion id is falsy or
matches no id rule, the result is the earliest-matching rule of the
fixed ordered text-rule list; concretely, text containing both
"coupon" and "lightning" is `Coupon` via the coupon-payment list but
`LightningDeal` via the shipment list (the lightning rule precedes the
coupon rule). -/
theorem c8_classifier_precedence :
    (∀ (pt : Option String) (ct : String) (raw : JVal) (pid : Option String),
        normalize_promo pt "CouponPaymentEventList" ct raw pid = "Coupon") ∧
    (∀ (pt : Option String) (ct : String) (raw : JVal) (pid : Option String)
        (lbl : String),
        (if pid.getD "" = "" then none
          else firstMatch1 PROMO_ID_REGEXES (lowerStr (pid.getD "")).data) =
          none →
        firstMatch2 PROMO_REGEXES
          (lowerStr (pyStrip (String.intercalate " "
            (List.filter (fun x => x ≠ "") [pt.getD "", ct])))).data
          (lowerStr (jdump (if jTruthy raw then raw else JVal.obj []))).data =
          some lbl →
        normalize_promo pt "ShipmentEventList" ct raw pid = lbl) ∧
    normalize_promo (some "coupon lightning") "CouponPaymentEventList" ""
      (.obj []) none = "Coupon" ∧
    normalize_promo (some "coupon lightning") "ShipmentEventList" ""
      (.obj []) none = "LightningDeal" := by
  refine ⟨fun pt ct raw pid => by simp [normalize_promo], ?_, by decide, by decide⟩
  intro pt ct raw pid lbl h1 h2
  simp only [normalize_promo]
  rw [if_neg (by decide), if_neg (by decide), h1, h2]

/-- C8 applied at a concrete shipment-list input whose only matching
text rule is the blitzangebot (lightning) rule. -/
theorem c8_classifier_precedence_witness :
    normalize_promo (some "blitzangebot aktion") "ShipmentEventList" ""
      (.obj []) none = "LightningDeal" :=
  c8_classifier_precedence.2.1 (some "blitzangebot aktion") "" (.obj []) none
    "LightningDeal" (by decide) (by decide)

/-- A `PromotionList` entry classified `Deal` with amount `-0.01`, on an
item with no shipping components (both shipping sums are `0`). -/
def prC9 : PromoEntry :=
  ⟨some "Deal", some "", some ⟨some (-(1/100)), "EUR"⟩, .obj []⟩

set_option maxHeartbeats 800000 in
/-- Counterexample to C9 as stated: the amount `-0.01` is within the
0.02 tolerance of the item's summed shipping-charge components (`0`),
yet the emitted line keeps classification `Deal` — the code requires
the summed total to be nonzero (truthy) before the tolerance test. -/
theorem c9_counterexample :
    nearly_equal (some |(-(1/100) : ℚ)|) (some (0:ℚ)) = true ∧
    ((ship_promo_step 0 0 (some "O1") (some "S1") (some "A1") "G1" 0 0
        St.init prC9).all_rows.map (fun r => r.typ)) = ["Deal"] := by
  constructor
  · simp only [nearly_equal, decide_eq_true_eq]
    norm_num
    rw [abs_of_pos (by norm_num : (0:ℚ) < 1/100)]
    norm_num
  · have hb : normalize_promo (some "Deal") "ShipmentEventList" "" (.obj [])
        (some "") = "Deal" := by decide
    norm_num +decide [ship_promo_step, prC9, money_amount, hb, St.init,
      add_row_and_accumulate, pyStrD, nearly_equal]

/-- C9 (amended): in the shipment extractor, a promotion line classified
`Promotion(Unknown)` or `Deal` with a negative amount is reclassified to
`ShipPromotion` exactly when the item's summed shipping-charge total is
nonzero and within 0.02 of the absolute amount, or the summed
shipping-tax total is nonzero and within 0.02 of it; when both tests
fail (and the amount is not below the unknown-sample threshold), the
line keeps its original classification. -/
theorem c9_amended_ship_promo (day dt : ℤ) (oid sku asin : Option String)
    (gid : String) (shipTot shipTax : ℚ) (st : St) (pr : PromoEntry)
    (a : ℚ) (c : String) (b0 : String)
    (hamt : money_amount pr.promotionAmount = (some a, c))
    (hneg : a < 0)
    (hb0 : normalize_promo (some (pyStrD pr.promotionType ""))
      "ShipmentEventList" "" pr.raw (some (pyStrD pr.promotionId "")) = b0)
    (hb : b0 = "Promotion(Unknown)" ∨ b0 = "Deal") :
    (((shipTot ≠ 0 ∧ nearly_equal (some |a|) (some shipTot) = true) ∨
        (shipTax ≠ 0 ∧ nearly_equal (some |a|) (some shipTax) = true)) →
      ship_promo_step day dt oid sku asin gid shipTot shipTax st pr =
        (if (⟨pyStrD oid "", pyStrD sku "_ORDER_LEVEL_", pyStrD asin "",
            "ShipPromotion", fl a, c, dt, gid⟩ : PromoKey) ∈ st.promo_seen then
          { st with promo_dup_skipped := st.promo_dup_skipped + 1 }
        else add_row_and_accumulate
          { st with promo_seen := st.promo_seen ++
            [⟨pyStrD oid "", pyStrD sku "_ORDER_LEVEL_", pyStrD asin "",
              "ShipPromotion", fl a, c, dt, gid⟩] }
          day dt "Promotion" "ShipPromotion" c (some a) oid sku asin gid
          "ShipmentEventList")) ∧
    (¬(shipTot ≠ 0 ∧ nearly_equal (some |a|) (some shipTot) = true) →
      ¬(shipTax ≠ 0 ∧ nearly_equal (some |a|) (some shipTax) = true) →
      ¬(|a| < 1/200) →
      ship_promo_step day dt oid sku asin gid shipTot shipTax st pr =
        (if (⟨pyStrD oid "", pyStrD sku "_ORDER_LEVEL_", pyStrD asin "",
            b0, fl a, c, dt, gid⟩ : PromoKey) ∈ st.promo_seen then
          { st with promo_dup_skipped := st.promo_dup_skipped + 1 }
        else add_row_and_accumulate
          { st with promo_seen := st.promo_seen ++
            [⟨pyStrD oid "", pyStrD sku "_ORDER_LEVEL_", pyStrD asin "",
              b0, fl a, c, dt, gid⟩] }
          day dt "Promotion" b0 c (some a) oid sku asin gid
          "ShipmentEventList")) := by
  have hcond : (b0 = "Promotion(Unknown)" ∨ b0 = "Deal") ∧ a < 0 := ⟨hb, hneg⟩
  have hnotunk : ¬(("ShipPromotion" : String) = "Promotion(Unknown)" ∧
      (some a = none ∨ |a| < 1/200)) := fun hcon => absurd hcon.1 (by decide)
  constructor
  · intro hmatch
    simp only [ship_promo_step, hamt, hb0, Option.getD_some]
    rw [if_pos hcond]
    by_cases h1 : shipTot ≠ 0 ∧ nearly_equal (some |a|) (some shipTot) = true
    · rw [if_pos h1, if_neg hnotunk]
    · rcases hmatch with hm | hm
      · exact absurd hm h1
      · rw [if_neg h1, if_pos hm, if_neg hnotunk]
  · intro hn1 hn2 hbig
    have hnotunk2 : ¬(b0 = "Promotion(Unknown)" ∧
        (some a = none ∨ |a| < 1/200)) :=
      fun hcon => hbig (Or.resolve_left hcon.2 (by simp))
    simp only [ship_promo_step, hamt, hb0, Option.getD_some]
    rw [if_pos hcond, if_neg hn1, if_neg hn2, if_neg hnotunk2]

/-- A `PromotionList` entry classified `Deal` with amount `-3.00`. -/
def prW : PromoEntry :=
  ⟨some "Deal", some "", some ⟨some (-3), "EUR"⟩, .obj []⟩

/-- C9 amended theorem at the spec's example: amount `-3.00` against a
summed shipping charge of `3.01` reclassifies to `ShipPromotion`. -/
theorem c9_amended_ship_promo_witness :
    ship_promo_step 0 0 (some "O1") (some "S1") (some "A1") "G1"
        (301/100) 0 St.init prW =
      (if (⟨pyStrD (some "O1") "", pyStrD (some "S1") "_ORDER_LEVEL_",
          pyStrD (some "A1") "", "ShipPromotion", fl (-3), "EUR", 0, "G1"⟩ :
          PromoKey) ∈ St.init.promo_seen then
        { St.init with promo_dup_skipped := St.init.promo_dup_skipped + 1 }
      else add_row_and_accumulate
        { St.init with promo_seen := St.init.promo_seen ++
          [⟨pyStrD (some "O1") "", pyStrD (some "S1") "_ORDER_LEVEL_",
            pyStrD (some "A1") "", "ShipPromotion", fl (-3), "EUR", 0, "G1"⟩] }
        0 0 "Promotion" "ShipPromotion" "EUR" (some (-3)) (some "O1")
        (some "S1") (some "A1") "G1" "ShipmentEventList") :=
  (c9_amended_ship_promo 0 0 (some "O1") (some "S1") (some "A1") "G1"
      (301/100) 0 St.init prW (-3) "EUR" "Deal" rfl (by norm_num) (by decide)
      (Or.inr rfl)).1
    (Or.inl ⟨by norm_num, by
      simp only [nearly_equal, decide_eq_true_eq]
      rw [abs_of_nonpos (by norm_num : (-3:ℚ) ≤ 0)]
      norm_num
      rw [abs_of_pos (by norm_num : (0:ℚ) < 1/100)]
      norm_num⟩)

/-! ### C1: idempotent persistence -/

theorem foldl_pres_gen {β α : Type} {P : β → Prop} {f : β → α → β}
    (h : ∀ b a, P b → P (f b a)) (l : List α) :
    ∀ b, P b → P (l.foldl f b) := by
  induction l with
  | nil => intro b h0; exact h0
  | cons x t ih => intro b h0; exact ih _ (h _ _ h0)

/-- The `push_fee_lines` loop invariant: the seen set is the incoming
set extended by exactly the payload's hashes, the payload's hashes are
pairwise distinct, and none of them was in the incoming set. -/
def PushInv (seen0 : List String) (acc : PushOut) : Prop :=
  acc.seen = seen0 ++ acc.payload.map feeLineKey ∧
  (acc.payload.map feeLineKey).Nodup ∧
  ∀ hsh ∈ acc.payload.map feeLineKey, hsh ∉ seen0

theorem fee_line_step_inv (cfg : Config) (seen0 : List String)
    (acc : PushOut) (r : Row) (hI : PushInv seen0 acc) :
    PushInv seen0 (fee_line_step cfg acc r) := by
  obtain ⟨h1, h2, h3⟩ := hI
  rw [fee_line_step]
  by_cases hm : md5 (fee_line_key_str cfg r) ∈ acc.seen
  · rw [if_pos hm]
    exact ⟨h1, h2, h3⟩
  · rw [if_neg hm]
    have hns : md5 (fee_line_key_str cfg r) ∉ seen0 ∧
        md5 (fee_line_key_str cfg r) ∉ acc.payload.map feeLineKey := by
      rw [h1, List.mem_append] at hm
      exact ⟨fun hc => hm (Or.inl hc), fun hc => hm (Or.inr hc)⟩
    refine ⟨?_, ?_, ?_⟩
    · show acc.seen ++ [md5 (fee_line_key_str cfg r)] =
        seen0 ++ (acc.payload ++ [fee_line_row cfg r]).map feeLineKey
      rw [List.map_append, h1, List.append_assoc]
      rfl
    · show ((acc.payload ++ [fee_line_row cfg r]).map feeLineKey).Nodup
      rw [List.map_append]
      refine List.Nodup.append h2 (by simp) ?_
      intro a ha hx
      have he : a = feeLineKey (fee_line_row cfg r) := by simpa using hx
      subst he
      exact hns.2 ha
    · intro hsh hh
      rw [List.map_append, List.mem_append] at hh
      rcases hh with hh | hh
      · exact h3 hsh hh
      · have he : hsh = feeLineKey (fee_line_row cfg r) := by simpa using hh
        subst he
        exact hns.1

/-- The invariant holds of the finished `push_fee_lines` state: in
particular, within-run duplicate lines never reach the payload. -/
theorem push_fee_lines_inv (cfg : Config) (rows : List Row)
    (seen0 : List String) : PushInv seen0 (push_fee_lines cfg rows seen0) :=
  foldl_pres_gen (fun b a hb => fee_line_step_inv cfg seen0 b a hb) rows
    ⟨[], seen0, 0⟩ ⟨by simp, by simp, by simp⟩

/-- Evaluation of the modelled store: after an upsert, a conflict key
maps to the last upserted row with that key, else to its prior value. -/
theorem upsertTable_eval {κ α : Type} [DecidableEq κ] (key : α → κ)
    (rows : List α) :
    ∀ (tbl : κ → Option α) (k : κ),
    upsertTable key tbl rows k =
      (rows.filter (fun r => decide (key r = k))).foldl
        (fun _ r => some r) (tbl k) := by
  induction rows with
  | nil => intro tbl k; rfl
  | cons r t ih =>
    intro tbl k
    have hstep : upsertTable key tbl (r :: t) =
        upsertTable key (fun k' => if k' = key r then some r else tbl k') t :=
      rfl
    rw [hstep, ih]
    by_cases hk : key r = k
    · rw [List.filter_cons_of_pos (by simpa using hk), List.foldl_cons,
        if_pos hk.symm]
    · rw [List.filter_cons_of_neg (by simpa using hk),
        if_neg (fun hc => hk hc.symm)]

theorem foldl_some_override {α : Type} (l : List α) (hne : l ≠ []) :
    ∀ (b b' : Option α),
    l.foldl (fun _ r => some r) b = l.foldl (fun _ r => some r) b' := by
  cases l with
  | nil => exact absurd rfl hne
  | cons r t => intro b b'; rfl

/-- Upserting the same row set twice leaves the store exactly as after
one upsert: re-upsert replaces, never duplicates. -/
theorem upsertTable_idem {κ α : Type} [DecidableEq κ] (key : α → κ)
    (tbl : κ → Option α) (rows : List α) :
    upsertTable key (upsertTable key tbl rows) rows =
      upsertTable key tbl rows := by
  funext k
  rw [upsertTable_eval key rows (upsertTable key tbl rows) k,
    upsertTable_eval key rows tbl k]
  by_cases hl : rows.filter (fun r => decide (key r = k)) = []
  · rw [hl]
    rfl
  · exact foldl_some_override _ hl _ _

set_option synthInstance.maxSize 1000 in
/-- C1: within one run, the audit payload's line-hashes are pairwise
distinct and disjoint from the previously-seen set (duplicates are
dropped before the store); re-upserting the identical audit payload
into the line-hash-keyed store, and the identical aggregate rows into
the conflict-key-keyed store, leaves each store exactly as after the
first upsert (the pipeline itself is a pure function of its input, so a
second run produces the identical payload and rows). -/
theorem c1_idempotent_persistence (cfg : Config) (rows : List Row)
    (seen0 : List String) (tblL : String → Option FeeLine)
    (tblR : String × String × String × ℤ × ℤ × String × String →
      Option FeeRow)
    (catM : List (AggKey × List (String × ℚ))) (lastM : List (LastKey × ℤ))
    (qtyM : List (QtyKey × ℤ)) :
    (((push_fee_lines cfg rows seen0).payload.map feeLineKey).Nodup ∧
      ∀ hsh ∈ (push_fee_lines cfg rows seen0).payload.map feeLineKey,
        hsh ∉ seen0) ∧
    upsertTable feeLineKey
        (upsertTable feeLineKey tblL (push_fee_lines cfg rows seen0).payload)
        (push_fee_lines cfg rows seen0).payload =
      upsertTable feeLineKey tblL (push_fee_lines cfg rows seen0).payload ∧
    upsertTable feeRowKey
        (upsertTable feeRowKey tblR (rows_by_sku cfg catM lastM qtyM).1)
        (rows_by_sku cfg catM lastM qtyM).1 =
      upsertTable feeRowKey tblR (rows_by_sku cfg catM lastM qtyM).1 :=
  ⟨⟨(push_fee_lines_inv cfg rows seen0).2.1,
    (push_fee_lines_inv cfg rows seen0).2.2⟩,
    upsertTable_idem feeLineKey tblL (push_fee_lines cfg rows seen0).payload,
    upsertTable_idem feeRowKey tblR (rows_by_sku cfg catM lastM qtyM).1⟩
